import Mathlib

/-!
Shallow embedding of the transactional core of the nexureco storefront
backend (checkout, inventory ledger, discount engine, order state
changes), translated from:
  backend/app/services/coupon_service.py
  backend/app/services/order_service.py
  backend/app/api/v1/endpoints/admin/orders.py
  backend/app/api/v1/endpoints/admin/inventory.py
  backend/app/models/{order,coupon,product,media,cart}.py

Monetary values (Python floats backed by `Numeric(10,2)` database
columns) are modelled as rationals; Python's `round(x, 2)` is modelled
as rounding to the nearest multiple of 1/100.  Database rows are lists
of structures; ORM mutation of a fetched row is modelled as mapping an
update over the corresponding list.  Timestamps are integers.
-/

namespace Nexureco

/-- Python `round(x, 2)`: the discount is rounded to two decimal places
before being returned by `validate_coupon`. -/
def round2 (q : ℚ) : ℚ := (⌊q * 100 + 1/2⌋ : ℚ) / 100

/-- A rational is a whole number of cents — the set of values
representable in the `Numeric(10,2)` money columns of the database. -/
def isCents (q : ℚ) : Prop := (q * 100).den = 1

instance (q : ℚ) : Decidable (isCents q) :=
  inferInstanceAs (Decidable ((q * 100).den = 1))

/-- `products` table (the columns the checkout logic reads). -/
structure Product where
  id : Nat
  name : String
  sku : Option String
  base_price : ℚ
  status : String
  total_sold : Int
  deriving Repr, DecidableEq

/-- `product_variants` table (the columns the inventory logic reads). -/
structure Variant where
  id : Nat
  product_id : Nat
  sku : Option String
  price : Option ℚ
  stock_quantity : Int
  low_stock_threshold : Int
  is_active : Bool
  deriving Repr, DecidableEq

/-- `inventory_log` table: one immutable stock-delta record. -/
structure InventoryLog where
  variant_id : Nat
  quantity_change : Int
  reason : String
  reference_id : Option Nat
  note : Option String
  deriving Repr, DecidableEq

/-- `coupons` table. -/
structure Coupon where
  id : Nat
  code : String
  type : String
  value : ℚ
  min_order_amount : ℚ
  max_discount : Option ℚ
  usage_limit : Option Nat
  usage_per_customer : Nat
  used_count : Nat
  is_active : Bool
  starts_at : Option Int
  expires_at : Option Int
  deriving Repr, DecidableEq

/-- `coupon_usage` table. -/
structure CouponUsage where
  coupon_id : Nat
  user_id : Nat
  order_id : Nat
  deriving Repr, DecidableEq

/-- `orders` table (monetary and identity columns; the shipping-address
snapshot, tracking and note columns are copied verbatim from the request
and are omitted). -/
structure Order where
  id : Nat
  order_number : String
  user_id : Option Nat
  guest_email : Option String
  status : String
  payment_status : String
  subtotal : ℚ
  shipping_cost : ℚ
  discount_amount : ℚ
  tax_amount : ℚ
  total : ℚ
  coupon_id : Option Nat
  coupon_code : Option String
  deriving Repr, DecidableEq

/-- `order_items` table (price-snapshot columns). -/
structure OrderItem where
  order_id : Nat
  product_id : Option Nat
  variant_id : Option Nat
  product_name : String
  sku : Option String
  quantity : Nat
  unit_price : ℚ
  total_price : ℚ
  deriving Repr, DecidableEq

/-- `order_status_history` table. -/
structure StatusHistory where
  order_id : Nat
  status : String
  note : Option String
  created_by : Option Nat
  deriving Repr, DecidableEq

/-- `cart_items` table (the columns the checkout logic touches). -/
structure CartItem where
  user_id : Option Nat
  session_id : Option String
  product_id : Nat
  variant_id : Option Nat
  quantity : Nat
  deriving Repr, DecidableEq

/-- The persisted state the transactional core reads and writes. -/
structure State where
  products : List Product
  variants : List Variant
  inventory_log : List InventoryLog
  coupons : List Coupon
  coupon_usage : List CouponUsage
  orders : List Order
  order_items : List OrderItem
  status_history : List StatusHistory
  cart_items : List CartItem
  next_order_id : Nat
  deriving Repr, DecidableEq

/-- Typed rendering of the `BadRequestException` / `NotFoundException` /
`IntegrityError` failures raised by the embedded operations; each
constructor corresponds to one distinct message in the source. -/
inductive Err where
  | productUnavailable (product_id : Nat)
  | variantUnavailable (product_name : String)
  | insufficientStock (available : Int) (product_name : String)
  | invalidCouponCode
  | couponNotYetActive
  | couponExpired
  | couponUsageLimitReached
  | couponAlreadyUsed
  | couponBelowMinimum (min_order_amount : ℚ)
  | productNotFound (product_id : Nat)
  | variantNotFound (variant_id : Nat)
  | badItemShape
  | duplicateOrderNumber
  | orderNotFound
  | cannotCancel
  | insufficientAdjust (previous : Int) (change : Int)
  deriving Repr, DecidableEq

/-- Python `str.upper()` on the coupon code, character by character. -/
def strUpper (s : String) : String := String.mk (s.data.map Char.toUpper)

/-- Result of `validate_coupon` (the dict the service returns). -/
structure CouponInfo where
  coupon_id : Nat
  code : String
  type : String
  value : ℚ
  discount_amount : ℚ
  deriving Repr, DecidableEq

/-- The `# Calculate discount` block of `validate_coupon`: a percentage
coupon takes `value` percent of the subtotal, clamped to `max_discount`
when that is truthy (Python: `None` and `0` both skip the clamp); a
fixed-amount coupon takes `value`; the result is clamped to the subtotal
and rounded to two decimal places (`round(discount, 2)`). -/
def couponDiscount (coupon : Coupon) (subtotal : ℚ) : ℚ :=
  let discount0 : ℚ :=
    if coupon.type = "percentage" then
      let d := subtotal * (coupon.value / 100)
      match coupon.max_discount with
      | some m => if m ≠ 0 then min d m else d
      | none => d
    else coupon.value
  round2 (min discount0 subtotal)

/-- `coupon_service.validate_coupon`: the single SELECT filters on the
upper-cased code and `is_active` together, so a missing and an inactive
coupon produce the same error.  Python truthiness on `usage_limit` and
`max_discount` makes `None` and `0` behave alike. -/
def validate_coupon (st : State) (now : Int) (code : String)
    (user_id : Option Nat) (subtotal : ℚ) : Except Err CouponInfo :=
  match st.coupons.find? (fun c => c.code == strUpper code && c.is_active) with
  | none => .error .invalidCouponCode
  | some coupon =>
    if (match coupon.starts_at with
        | some s => decide (now < s)
        | none => false) then
      .error .couponNotYetActive
    else if (match coupon.expires_at with
        | some e => decide (e < now)
        | none => false) then
      .error .couponExpired
    else if (match coupon.usage_limit with
        | some n => decide (0 < n) && decide (n ≤ coupon.used_count)
        | none => false) then
      .error .couponUsageLimitReached
    else if ((match user_id with
        | some uid =>
          decide (coupon.usage_per_customer ≤
            (st.coupon_usage.filter
              (fun u => u.coupon_id == coupon.id && u.user_id == uid)).length)
        | none => false : Bool)) then
      .error .couponAlreadyUsed
    else if subtotal < coupon.min_order_amount then
      .error (.couponBelowMinimum coupon.min_order_amount)
    else
      .ok { coupon_id := coupon.id, code := coupon.code, type := coupon.type,
            value := coupon.value, discount_amount := couponDiscount coupon subtotal }

/-- `coupon_service.record_coupon_usage`: insert a usage row and bump the
coupon's `used_count`. -/
def record_coupon_usage (st : State) (coupon_id user_id order_id : Nat) : State :=
  { st with
    coupon_usage := st.coupon_usage ++ [⟨coupon_id, user_id, order_id⟩],
    coupons := st.coupons.map (fun c =>
      if c.id == coupon_id then { c with used_count := c.used_count + 1 } else c) }

/-- Python truthiness of an optional integer id: `0` and `None` both
test false (`if cart_item.variant_id:`, `if item_data.product_id:`). -/
def truthyId (o : Option Nat) : Option Nat :=
  match o with
  | some 0 => none
  | o => o

/-- Python truthiness of an optional string: `""` and `None` both test
false (`if coupon_code:`, `if variant.sku:`). -/
def truthyStr (o : Option String) : Option String :=
  match o with
  | some s => if s == "" then none else some s
  | none => none

/-- One line of `CheckoutRequest.items` (schema `CheckoutItem`,
`quantity = Field(ge=1)`). -/
structure CheckoutItem where
  product_id : Nat
  variant_id : Option Nat
  quantity : Nat
  deriving Repr, DecidableEq

/-- `CheckoutRequest` (the fields the orchestrator reads; the shipping
snapshot fields are copied verbatim onto the order and are omitted). -/
structure CheckoutRequest where
  guest_email : Option String
  items : List CheckoutItem
  customer_note : Option String
  coupon_code : Option String
  deriving Repr, DecidableEq

/-- `order_service._generate_order_number`: `"MB-"` followed by the
eight digit characters drawn by `random.choices(string.digits, k=8)`;
the randomness is injected as the chosen character list. -/
def generate_order_number (rand : List Char) : String :=
  "MB-" ++ String.mk rand

/-- SELECT of a product row by id (`scalar_one_or_none`). -/
def findProduct (st : State) (pid : Nat) : Option Product :=
  st.products.find? (fun p => p.id == pid)

/-- SELECT of a variant row by id (`scalar_one_or_none`). -/
def findVariant (st : State) (vid : Nat) : Option Variant :=
  st.variants.find? (fun v => v.id == vid)

/-- ORM mutation of a fetched variant row: apply `f` to the row with the
given id. -/
def updateVariant (st : State) (vid : Nat) (f : Variant → Variant) : State :=
  { st with variants := st.variants.map (fun v => if v.id == vid then f v else v) }

/-- ORM mutation of a fetched product row. -/
def updateProduct (st : State) (pid : Nat) (f : Product → Product) : State :=
  { st with products := st.products.map (fun p => if p.id == pid then f p else p) }

/-- `db.add(InventoryLog(...))`. -/
def addLog (st : State) (e : InventoryLog) : State :=
  { st with inventory_log := st.inventory_log ++ [e] }

/-- The inventory-debit block of the checkout loops:
`variant.stock_quantity -= quantity` followed by
`db.add(InventoryLog(quantity_change=-quantity, reason="order_placed"))`. -/
def debitStock (st : State) (w : Nat) (q : Nat) (note : String) : State :=
  addLog (updateVariant st w (fun v => { v with stock_quantity := v.stock_quantity - q }))
    ⟨w, -(q : Int), "order_placed", none, some note⟩

/-- The restore-inventory block of `cancel_order`:
`variant.stock_quantity += item.quantity` followed by
`db.add(InventoryLog(quantity_change=item.quantity, reason="order_cancelled",
reference_id=order.id))`. -/
def creditStock (st : State) (w : Nat) (q : Nat) (oid : Nat) (note : String) : State :=
  addLog (updateVariant st w (fun v => { v with stock_quantity := v.stock_quantity + q }))
    ⟨w, (q : Int), "order_cancelled", some oid, some note⟩

/-- Data accumulated for one order line before the order row exists
(the `order_items.append({...})` dict in `place_order`). -/
structure LineData where
  product_id : Option Nat
  variant_id : Option Nat
  product_name : String
  sku : Option String
  quantity : Nat
  unit_price : ℚ
  total_price : ℚ
  deriving Repr, DecidableEq

/-- The per-line loop of `order_service.place_order`: resolve product and
variant, reject inactive/missing rows and insufficient stock, debit the
variant, write one `order_placed` ledger entry, accumulate the subtotal
and the line snapshots, and bump `product.total_sold`. -/
def processItems (st : State) (items : List CheckoutItem) :
    Except Err (State × ℚ × List LineData) :=
  match items with
  | [] => .ok (st, 0, [])
  | ci :: rest =>
    match findProduct st ci.product_id with
    | none => .error (.productUnavailable ci.product_id)
    | some product =>
      if product.status ≠ "active" then
        .error (.productUnavailable ci.product_id)
      else
        match truthyId ci.variant_id with
        | none =>
          let unit_price := product.base_price
          let line_total := unit_price * ci.quantity
          let st1 := updateProduct st ci.product_id
            (fun p => { p with total_sold := p.total_sold + ci.quantity })
          (processItems st1 rest).map (fun (st2, sub, lines) =>
            (st2, line_total + sub,
             ⟨some product.id, none, product.name, product.sku,
              ci.quantity, unit_price, line_total⟩ :: lines))
        | some vid =>
          match findVariant st vid with
          | none => .error (.variantUnavailable product.name)
          | some variant =>
            if ¬ variant.is_active then
              .error (.variantUnavailable product.name)
            else if variant.stock_quantity < ci.quantity then
              .error (.insufficientStock variant.stock_quantity product.name)
            else
              let unit_price := variant.price.getD product.base_price
              let sku := match truthyStr variant.sku with
                | some s => some s
                | none => product.sku
              let st2 := debitStock st vid ci.quantity "Order placed"
              let line_total := unit_price * ci.quantity
              let st3 := updateProduct st2 ci.product_id
                (fun p => { p with total_sold := p.total_sold + ci.quantity })
              (processItems st3 rest).map (fun (st4, sub, lines) =>
                (st4, line_total + sub,
                 ⟨some product.id, some vid, product.name, sku,
                  ci.quantity, unit_price, line_total⟩ :: lines))

/-- The tail of `order_service.place_order` after coupon validation:
totals (free shipping at or above 5000, flat fee 200, tax 0), order
persistence (the unique index on `orders.order_number` makes the flush
fail on a duplicate number — there is no retry), line items, the single
`pending` history row, coupon-usage recording, and the cart clearing for
logged-in users. -/
def place_order_finish (st1 : State) (rand : List Char) (user : Option Nat)
    (data : CheckoutRequest) (subtotal : ℚ) (lines : List LineData)
    (discount_amount : ℚ) (coupon_id : Option Nat) (coupon_code : Option String) :
    Except Err (State × Order) :=
  let shipping_cost : ℚ := if 5000 ≤ subtotal then 0 else 200
  let total := subtotal - discount_amount + shipping_cost
  let num := generate_order_number rand
  if st1.orders.any (fun o => o.order_number == num) then
    .error .duplicateOrderNumber
  else
    let oid := st1.next_order_id
    let order : Order :=
      { id := oid, order_number := num, user_id := user,
        guest_email := if user.isSome then none else data.guest_email,
        status := "pending", payment_status := "pending",
        subtotal := subtotal, shipping_cost := shipping_cost,
        discount_amount := discount_amount, tax_amount := 0, total := total,
        coupon_id := coupon_id, coupon_code := coupon_code }
    let st2 := { st1 with
      orders := st1.orders ++ [order],
      next_order_id := oid + 1,
      order_items := st1.order_items ++ lines.map (fun l =>
        ⟨oid, l.product_id, l.variant_id, l.product_name, l.sku,
         l.quantity, l.unit_price, l.total_price⟩),
      status_history := st1.status_history ++ [⟨oid, "pending", some "Order placed", none⟩] }
    let st3 :=
      match truthyId coupon_id, user with
      | some cid, some uid => record_coupon_usage st2 cid uid oid
      | _, _ => st2
    let st4 :=
      match user with
      | some uid =>
        { st3 with cart_items := st3.cart_items.filter (fun c => ¬ c.user_id == some uid) }
      | none => st3
    .ok (st4, order)

/-- `order_service.place_order`, up to the final flush: the per-line loop,
coupon validation (a coupon failure propagates and aborts the checkout),
then `place_order_finish`. -/
def place_order_core (st : State) (now : Int) (rand : List Char)
    (user : Option Nat) (data : CheckoutRequest) :
    Except Err (State × Order) :=
  match processItems st data.items with
  | .error e => .error e
  | .ok (st1, subtotal, lines) =>
    match truthyStr data.coupon_code with
    | some code =>
      match validate_coupon st1 now code user subtotal with
      | .error e => .error e
      | .ok info =>
        place_order_finish st1 rand user data subtotal lines
          info.discount_amount (some info.coupon_id) (some info.code)
    | none =>
      place_order_finish st1 rand user data subtotal lines 0 none none

/-- Modelled from the spec: the unit-of-work wrapper around each request
(`app.db.database.get_db`, not present in the source tree) — per §4.4/§5
a failure before commit aborts the transaction, so every ORM mutation
made by the failed handler is rolled back and the pre-request state is
kept; on success the mutated state commits. -/
def runTx {α : Type} (st : State) (act : Except Err (State × α)) : State × Except Err α :=
  match act with
  | .error e => (st, .error e)
  | .ok (st', o) => (st', .ok o)

/-- `place_order` as one atomic unit of work. -/
def place_order (st : State) (now : Int) (rand : List Char)
    (user : Option Nat) (data : CheckoutRequest) : State × Except Err Order :=
  runTx st (place_order_core st now rand user data)

/-- `order_service.get_order_by_number` with a user filter: SELECT by
order number, restricted to the given owner (`if user_id:` — a zero id
tests false and disables the filter). -/
def findOrderByNumber (st : State) (number : String) (uid : Nat) : Option Order :=
  if uid == 0 then st.orders.find? (fun o => o.order_number == number)
  else st.orders.find? (fun o => o.order_number == number && o.user_id == some uid)

/-- The `order.items` relationship: line items of one order. -/
def itemsOfOrder (st : State) (oid : Nat) : List OrderItem :=
  st.order_items.filter (fun i => i.order_id == oid)

/-- ORM mutation of a fetched order row. -/
def updateOrder (st : State) (oid : Nat) (f : Order → Order) : State :=
  { st with orders := st.orders.map (fun o => if o.id == oid then f o else o) }

/-- The restore-inventory loop of `order_service.cancel_order`: for each
line item with a variant that still exists, credit the quantity back and
write one `order_cancelled` ledger entry referencing the order. -/
def restoreInventory (st : State) (order : Order) (items : List OrderItem) : State :=
  match items with
  | [] => st
  | item :: rest =>
    match truthyId item.variant_id with
    | none => restoreInventory st order rest
    | some vid =>
      match findVariant st vid with
      | none => restoreInventory st order rest
      | some _ =>
        let st2 := creditStock st vid item.quantity order.id
          ("Order " ++ order.order_number ++ " cancelled")
        restoreInventory st2 order rest

/-- `order_service.cancel_order` (customer cancellation): only `pending`
and `confirmed` orders may be cancelled; sets the status, credits every
line item's variant back, and appends one `cancelled` history row. -/
def cancel_order_core (st : State) (order_number : String) (uid : Nat) :
    Except Err (State × Order) :=
  match findOrderByNumber st order_number uid with
  | none => .error .orderNotFound
  | some order =>
    if order.status ≠ "pending" ∧ order.status ≠ "confirmed" then
      .error .cannotCancel
    else
      let st1 := updateOrder st order.id (fun o => { o with status := "cancelled" })
      let st2 := restoreInventory st1 order (itemsOfOrder st order.id)
      let st3 := { st2 with status_history :=
        st2.status_history ++ [⟨order.id, "cancelled", some "Cancelled by customer", none⟩] }
      .ok (st3, { order with status := "cancelled" })

/-- `cancel_order` as one atomic unit of work. -/
def cancel_order (st : State) (order_number : String) (uid : Nat) :
    State × Except Err Order :=
  runTx st (cancel_order_core st order_number uid)

/-- `admin/orders.update_order_status`: looks the order up by id, assigns
whatever status string was supplied (no transition validation), and
appends one history row.  It never touches stock or the ledger. -/
def update_order_status_core (st : State) (order_id : Nat) (status : String)
    (note : Option String) (admin_id : Nat) : Except Err (State × Order) :=
  match st.orders.find? (fun o => o.id == order_id) with
  | none => .error .orderNotFound
  | some order =>
    let st1 := updateOrder st order_id (fun o => { o with status := status })
    let st2 := { st1 with status_history :=
      st1.status_history ++ [⟨order_id, status, note, some admin_id⟩] }
    .ok (st2, { order with status := status })

/-- `update_order_status` as one atomic unit of work. -/
def update_order_status (st : State) (order_id : Nat) (status : String)
    (note : Option String) (admin_id : Nat) : State × Except Err Order :=
  runTx st (update_order_status_core st order_id status note admin_id)

/-- `admin/inventory.adjust_stock`: reject an adjustment that would make
the stock negative; otherwise apply it and write one ledger entry with
the same signed `quantity_change`. -/
def adjust_stock_core (st : State) (variant_id : Nat) (quantity_change : Int)
    (reason : String) (note : Option String) : Except Err (State × Int) :=
  match findVariant st variant_id with
  | none => .error (.variantNotFound variant_id)
  | some variant =>
    let previous_stock := variant.stock_quantity
    let new_stock := previous_stock + quantity_change
    if new_stock < 0 then
      .error (.insufficientAdjust previous_stock quantity_change)
    else
      let st1 := updateVariant st variant_id
        (fun v => { v with stock_quantity := new_stock })
      let st2 := addLog st1 ⟨variant_id, quantity_change, reason, none, note⟩
      .ok (st2, new_stock)

/-- `adjust_stock` as one atomic unit of work. -/
def adjust_stock (st : State) (variant_id : Nat) (quantity_change : Int)
    (reason : String) (note : Option String) : State × Except Err Int :=
  runTx st (adjust_stock_core st variant_id quantity_change reason note)

/-- One line of `AdminOrderCreate.items` (schema `AdminOrderItemCreate`,
`quantity = Field(ge=1)`); either product-based or a custom item. -/
structure AdminOrderItemCreate where
  product_id : Option Nat
  variant_id : Option Nat
  quantity : Nat
  custom_name : Option String
  custom_price : Option ℚ
  deriving Repr, DecidableEq

/-- `AdminOrderCreate` (the fields the handler computes with; the
shipping/contact fields are copied verbatim and are omitted). -/
structure AdminOrderCreate where
  items : List AdminOrderItemCreate
  customer_id : Option Nat
  admin_note : Option String
  discount_amount : ℚ
  shipping_cost : ℚ
  deriving Repr, DecidableEq

/-- The per-line loop of `admin_create_order`: a product-based line
(`if item_data.product_id:` — Python truthiness, id 0 behaves as absent)
requires the product to exist (its status is NOT checked here) and, when
a variant is given, debits it with the same insufficient-stock guard and
`order_placed` ledger entry as checkout; a custom line requires a
non-empty `custom_name` and a present `custom_price`. -/
def processAdminItems (st : State) (items : List AdminOrderItemCreate) :
    Except Err (State × ℚ × List LineData) :=
  match items with
  | [] => .ok (st, 0, [])
  | it :: rest =>
    match truthyId it.product_id with
    | some pid =>
      match findProduct st pid with
      | none => .error (.productNotFound pid)
      | some product =>
        match truthyId it.variant_id with
        | none =>
          let unit_price := product.base_price
          let line_total := unit_price * it.quantity
          let st1 := updateProduct st pid
            (fun p => { p with total_sold := p.total_sold + it.quantity })
          (processAdminItems st1 rest).map (fun (st2, sub, lines) =>
            (st2, line_total + sub,
             ⟨some product.id, none, product.name, product.sku,
              it.quantity, unit_price, line_total⟩ :: lines))
        | some vid =>
          match findVariant st vid with
          | none => .error (.variantNotFound vid)
          | some variant =>
            if variant.stock_quantity < it.quantity then
              .error (.insufficientStock variant.stock_quantity product.name)
            else
              let unit_price := variant.price.getD product.base_price
              let sku := match truthyStr variant.sku with
                | some s => some s
                | none => product.sku
              let st2 := debitStock st vid it.quantity "Admin-created order"
              let line_total := unit_price * it.quantity
              let st3 := updateProduct st2 pid
                (fun p => { p with total_sold := p.total_sold + it.quantity })
              (processAdminItems st3 rest).map (fun (st4, sub, lines) =>
                (st4, line_total + sub,
                 ⟨some product.id, some vid, product.name, sku,
                  it.quantity, unit_price, line_total⟩ :: lines))
    | none =>
      match truthyStr it.custom_name, it.custom_price with
      | some nm, some price =>
        let line_total := price * it.quantity
        (processAdminItems st rest).map (fun (st1, sub, lines) =>
          (st1, line_total + sub,
           ⟨none, none, nm, none, it.quantity, price, line_total⟩ :: lines))
      | _, _ => .error .badItemShape

/-- `admin/orders.admin_create_order`: process the lines, take the
admin-supplied `discount_amount` and `shipping_cost` as given (no
validation against the subtotal), store
`total = max(subtotal - discount_amount + shipping_cost, 0)` with
`tax_amount = 0`, persist the order (unique order number enforced by the
index at flush, no retry), its items, and one `pending` history row. -/
def admin_create_order_core (st : State) (rand : List Char) (admin_id : Nat)
    (data : AdminOrderCreate) : Except Err (State × Order) :=
  match processAdminItems st data.items with
  | .error e => .error e
  | .ok (st1, subtotal, lines) =>
  let total := subtotal - data.discount_amount + data.shipping_cost
  let num := generate_order_number rand
  if st1.orders.any (fun o => o.order_number == num) then
    .error .duplicateOrderNumber
  else
    let oid := st1.next_order_id
    let order : Order :=
      { id := oid, order_number := num, user_id := data.customer_id,
        guest_email := none,
        status := "pending", payment_status := "pending",
        subtotal := subtotal, shipping_cost := data.shipping_cost,
        discount_amount := data.discount_amount, tax_amount := 0,
        total := max total 0,
        coupon_id := none, coupon_code := none }
    let st2 := { st1 with
      orders := st1.orders ++ [order],
      next_order_id := oid + 1,
      order_items := st1.order_items ++ lines.map (fun l =>
        ⟨oid, l.product_id, l.variant_id, l.product_name, l.sku,
         l.quantity, l.unit_price, l.total_price⟩),
      status_history := st1.status_history ++
        [⟨oid, "pending", some "Order created by admin", some admin_id⟩] }
    .ok (st2, order)

/-- `admin_create_order` as one atomic unit of work. -/
def admin_create_order (st : State) (rand : List Char) (admin_id : Nat)
    (data : AdminOrderCreate) : State × Except Err Order :=
  runTx st (admin_create_order_core st rand admin_id data)

/-- One request against the transactional core: the five operations the
claims quantify over. -/
inductive Op where
  | checkout (now : Int) (rand : List Char) (user : Option Nat) (data : CheckoutRequest)
  | adminCreate (rand : List Char) (admin_id : Nat) (data : AdminOrderCreate)
  | adjust (variant_id : Nat) (quantity_change : Int) (reason : String) (note : Option String)
  | cancel (order_number : String) (uid : Nat)
  | setStatus (order_id : Nat) (status : String) (note : Option String) (admin_id : Nat)
  deriving Repr

/-- The state reached after one request (each request is one unit of
work: a failed request leaves the state unchanged). -/
def runOp (st : State) (op : Op) : State :=
  match op with
  | .checkout now rand user data => (place_order st now rand user data).1
  | .adminCreate rand admin_id data => (admin_create_order st rand admin_id data).1
  | .adjust vid q reason note => (adjust_stock st vid q reason note).1
  | .cancel number uid => (cancel_order st number uid).1
  | .setStatus oid status note admin_id => (update_order_status st oid status note admin_id).1

/-- The state reached after a sequence of requests. -/
def runOps (st : State) (ops : List Op) : State :=
  ops.foldl runOp st

/-- Current stock of a variant id (0 when the variant does not exist). -/
def stockOf (st : State) (vid : Nat) : Int :=
  match findVariant st vid with
  | some v => v.stock_quantity
  | none => 0

/-- Signed sum of all ledger entries of one variant. -/
def ledgerSum (st : State) (vid : Nat) : Int :=
  ((st.inventory_log.filter (fun e => e.variant_id == vid)).map
    (fun e => e.quantity_change)).sum

/-- The discount formula exactly as the specification words it: no
rounding, and "clamped to `max_discount` when `max_discount` is set"
(also when the stored cap is 0).  Stated only to compare the
implementation (`couponDiscount`) against the specification text. -/
def discountSpecC6 (c : Coupon) (subtotal : ℚ) : ℚ :=
  let raw := if c.type = "percentage" then
      match c.max_discount with
      | some m => min (subtotal * (c.value / 100)) m
      | none => subtotal * (c.value / 100)
    else c.value
  min raw subtotal

/-! ### Concrete fixtures used by the scenario parts of the claims -/

/-- An empty store. -/
def baseState : State :=
  { products := [], variants := [], inventory_log := [], coupons := [],
    coupon_usage := [], orders := [], order_items := [], status_history := [],
    cart_items := [], next_order_id := 1 }

/-- A single active product at the given price. -/
def prodW (price : ℚ) : Product := ⟨1, "Widget", none, price, "active", 0⟩

def couponFLAT : Coupon :=
  ⟨1, "FLAT500", "fixed_amount", 500, 3000, none, none, 1, 0, true, none, none⟩

def couponSAVE20 : Coupon :=
  ⟨2, "SAVE20", "percentage", 20, 0, some 800, none, 1, 0, true, none, none⟩

def couponPCT25 : Coupon :=
  ⟨3, "PCT25", "percentage", 25, 0, none, none, 1, 0, true, none, none⟩

def couponZCAP : Coupon :=
  ⟨4, "ZCAP", "percentage", 20, 0, some 0, none, 1, 0, true, none, none⟩

/-- The eight digits drawn for the order number in the fixtures. -/
def d8 : List Char := ['0', '0', '0', '0', '0', '0', '4', '2']

def stC8a : State := { baseState with products := [prodW 4500], coupons := [couponFLAT] }

def stC8b : State := { baseState with products := [prodW 6000], coupons := [couponSAVE20] }

def reqGuest (code : Option String) : CheckoutRequest :=
  { guest_email := some "guest@example.com", items := [⟨1, none, 1⟩],
    customer_note := none, coupon_code := code }

/-- Variant with three units in stock. -/
def varC2 : Variant := ⟨7, 1, none, none, 3, 5, true⟩

def stC2 : State := { baseState with products := [prodW 100], variants := [varC2] }

def reqC2 : CheckoutRequest :=
  { guest_email := some "guest@example.com", items := [⟨1, some 7, 5⟩],
    customer_note := none, coupon_code := none }

/-- An order already persisted under the number the fixture draw yields. -/
def oPrev : Order :=
  ⟨1, "MB-00000042", none, none, "pending", "pending", 100, 200, 0, 0, 300, none, none⟩

def stC9 : State :=
  { baseState with products := [prodW 100], orders := [oPrev], next_order_id := 2 }

def stC6r : State := { baseState with coupons := [couponPCT25] }

def stC6z : State := { baseState with coupons := [couponZCAP] }

def stSAVE : State := { baseState with coupons := [couponSAVE20] }

/-- A delivered order with one line of two units of variant 7. -/
def varC5 : Variant := ⟨7, 1, none, none, 0, 5, true⟩

def oC5 : Order :=
  ⟨1, "MB-00000001", some 1, none, "delivered", "pending", 200, 0, 0, 0, 200, none, none⟩

def itC5 : OrderItem := ⟨1, some 1, some 7, "Widget", none, 2, 100, 200⟩

def stC5 : State :=
  { baseState with
    products := [prodW 100], variants := [varC5],
    orders := [oC5], order_items := [itC5], next_order_id := 2 }

/-- The same order already cancelled. -/
def stC5b : State :=
  { stC5 with orders := [{ oC5 with status := "cancelled" }] }

def cartRow1 : CartItem := ⟨some 1, none, 1, none, 2⟩

def cartRow2 : CartItem := ⟨some 2, none, 1, none, 1⟩

def stC10 : State :=
  { baseState with products := [prodW 100], cart_items := [cartRow1, cartRow2] }

def reqC10 : CheckoutRequest :=
  { guest_email := none, items := [⟨1, none, 1⟩], customer_note := none,
    coupon_code := none }

/-- The order the C8a fixture checkout persists. -/
def oC8a : Order :=
  ⟨1, "MB-00000042", none, some "guest@example.com", "pending", "pending",
   4500, 200, 500, 0, 4200, some 1, some "FLAT500"⟩

/-- The order the C10 fixture checkout persists. -/
def oC10 : Order :=
  ⟨1, "MB-00000042", some 1, none, "pending", "pending",
   100, 200, 0, 0, 300, none, none⟩

/-- The state after a successful stock adjustment of +2 on the C2 fixture. -/
def stC4w : State :=
  { baseState with
    products := [prodW 100],
    variants := [⟨7, 1, none, none, 5, 5, true⟩],
    inventory_log := [⟨7, 2, "restock", none, none⟩] }

/-- An admin order request: one custom line of 100 with an admin-typed
discount of 500 and no shipping. -/
def dataC1 : AdminOrderCreate :=
  { items := [⟨none, none, 1, some "Gift", some 100⟩],
    customer_id := none, admin_note := none,
    discount_amount := 500, shipping_cost := 0 }

/-- The state after the C10 fixture checkout by user 1. -/
def stC10post : State :=
  { products := [⟨1, "Widget", none, 100, "active", 1⟩],
    variants := [], inventory_log := [], coupons := [], coupon_usage := [],
    orders := [oC10],
    order_items := [⟨1, some 1, none, "Widget", none, 1, 100, 100⟩],
    status_history := [⟨1, "pending", some "Order placed", none⟩],
    cart_items := [cartRow2], next_order_id := 2 }

/-- The order a guest checkout of the C10 fixture persists. -/
def oGW : Order :=
  ⟨1, "MB-00000042", none, some "guest@example.com", "pending", "pending",
   100, 200, 0, 0, 300, none, none⟩

/-- The state after a guest checkout of the C10 fixture (carts kept). -/
def stGWpost : State :=
  { stC10post with
    orders := [oGW], cart_items := [cartRow1, cartRow2] }

/-- The order the admin request `dataC1` persists. -/
def oAC1 : Order :=
  ⟨1, "MB-00000042", none, none, "pending", "pending",
   100, 0, 500, 0, 0, none, none⟩

/-- The state after the admin request `dataC1`. -/
def stAC1post : State :=
  { baseState with
    orders := [oAC1],
    order_items := [⟨1, none, none, "Gift", none, 1, 100, 100⟩],
    status_history := [⟨1, "pending", some "Order created by admin", some 9⟩],
    next_order_id := 2 }

/-- The dict validating `SAVE20` at subtotal 6000 returns. -/
def infoSAVE : CouponInfo := ⟨2, "SAVE20", "percentage", 20, 800⟩

/-! ### Well-formedness of persisted rows (enforced by the admin write
paths: `Numeric(10,2)` money columns, `CouponCreate.value = Field(gt=0)`,
primary-key uniqueness of variant ids) -/

/-- All catalog prices are nonnegative whole-cent amounts. -/
def pricesOk (st : State) : Prop :=
  (∀ p ∈ st.products, 0 ≤ p.base_price ∧ isCents p.base_price) ∧
  (∀ v ∈ st.variants, ∀ q, v.price = some q → 0 ≤ q ∧ isCents q)

/-- Coupon values are positive (schema `gt=0`) and caps nonnegative. -/
def couponsOk (st : State) : Prop :=
  ∀ c ∈ st.coupons, 0 < c.value ∧ (∀ m, c.max_discount = some m → 0 ≤ m)

/-- Variant ids are unique (primary key). -/
def variantIdsNodup (st : State) : Prop :=
  (st.variants.map (fun v => v.id)).Nodup

instance (st : State) : Decidable (pricesOk st) := by
  unfold pricesOk
  infer_instance

instance (st : State) : Decidable (couponsOk st) := by
  unfold couponsOk
  infer_instance

instance (st : State) : Decidable (variantIdsNodup st) := by
  unfold variantIdsNodup
  infer_instance

/-- The fields of the state that the per-line loops never touch. -/
def loopFrame (st st' : State) : Prop :=
  st'.coupons = st.coupons ∧ st'.coupon_usage = st.coupon_usage ∧
  st'.orders = st.orders ∧ st'.order_items = st.order_items ∧
  st'.status_history = st.status_history ∧ st'.cart_items = st.cart_items ∧
  st'.next_order_id = st.next_order_id

/-! ### Arithmetic facts about money rounding -/

theorem round2_nonneg {q : ℚ} (h : 0 ≤ q) : 0 ≤ round2 q := by
  unfold round2
  have h1 : (0 : ℚ) ≤ q * 100 + 1/2 := by positivity
  have h2 : (0 : ℤ) ≤ ⌊q * 100 + 1/2⌋ := Int.floor_nonneg.mpr h1
  have h3 : (0 : ℚ) ≤ (⌊q * 100 + 1/2⌋ : ℚ) := by exact_mod_cast h2
  positivity

theorem isCents_iff {q : ℚ} : isCents q ↔ ∃ n : ℤ, q * 100 = (n : ℚ) := by
  constructor
  · intro h
    exact ⟨(q * 100).num, ((Rat.den_eq_one_iff _).mp h).symm⟩
  · rintro ⟨n, hn⟩
    unfold isCents
    rw [hn, Rat.den_intCast]

theorem floor_int_add_half (m : ℤ) : ⌊(m : ℚ) + 1/2⌋ = m := by
  rw [Int.floor_int_add]
  norm_num [Int.floor_eq_iff]

theorem round2_le_of_le_cents {d s : ℚ} (hs : isCents s) (h : d ≤ s) : round2 d ≤ s := by
  obtain ⟨m, hm⟩ := isCents_iff.mp hs
  unfold round2
  have hmono : ⌊d * 100 + 1/2⌋ ≤ ⌊s * 100 + 1/2⌋ := by
    apply Int.floor_mono
    nlinarith
  rw [hm, floor_int_add_half] at hmono
  have : (⌊d * 100 + 1/2⌋ : ℚ) ≤ (m : ℚ) := by exact_mod_cast hmono
  rw [← hm] at this
  linarith

theorem round2_eq_of_cents {q : ℚ} (hq : isCents q) : round2 q = q := by
  obtain ⟨m, hm⟩ := isCents_iff.mp hq
  unfold round2
  rw [hm, floor_int_add_half, ← hm]
  ring

theorem isCents_intCast (n : ℤ) : isCents ((n : ℚ)) :=
  isCents_iff.mpr ⟨n * 100, by push_cast; ring⟩

theorem isCents_zero : isCents 0 := by
  have := isCents_intCast 0
  simpa using this

theorem isCents_add {a b : ℚ} (ha : isCents a) (hb : isCents b) : isCents (a + b) := by
  obtain ⟨x, hx⟩ := isCents_iff.mp ha
  obtain ⟨y, hy⟩ := isCents_iff.mp hb
  exact isCents_iff.mpr ⟨x + y, by push_cast [← hx, ← hy]; ring⟩

theorem isCents_mul_nat {a : ℚ} (ha : isCents a) (n : ℕ) : isCents (a * n) := by
  obtain ⟨x, hx⟩ := isCents_iff.mp ha
  exact isCents_iff.mpr ⟨x * n, by push_cast [← hx]; ring⟩

/-! ### How the primitive row updates act on the lookups -/

theorem findVariant_updateVariant (st : State) (w vid : Nat) (f : Variant → Variant)
    (hf : ∀ v, (f v).id = v.id) :
    findVariant (updateVariant st w f) vid =
      (findVariant st vid).map (fun v => if v.id == w then f v else v) := by
  unfold findVariant updateVariant
  rw [List.find?_map]
  have hp : ((fun v : Variant => v.id == vid) ∘ fun v => if v.id == w then f v else v)
      = (fun v : Variant => v.id == vid) := by
    funext v
    simp only [Function.comp]
    by_cases h : v.id == w
    · simp [h, hf]
    · simp [h]
  rw [hp]

theorem findVariant_updateProduct (st : State) (pid vid : Nat) (f : Product → Product) :
    findVariant (updateProduct st pid f) vid = findVariant st vid := rfl

theorem findVariant_addLog (st : State) (e : InventoryLog) (vid : Nat) :
    findVariant (addLog st e) vid = findVariant st vid := rfl

theorem ledgerSum_addLog (st : State) (e : InventoryLog) (vid : Nat) :
    ledgerSum (addLog st e) vid =
      ledgerSum st vid + (if e.variant_id == vid then e.quantity_change else 0) := by
  unfold ledgerSum addLog
  rw [List.filter_append, List.map_append, List.sum_append]
  by_cases h : e.variant_id == vid
  · simp [h]
  · simp [h]

theorem ledgerSum_updateVariant (st : State) (w : Nat) (f : Variant → Variant) (vid : Nat) :
    ledgerSum (updateVariant st w f) vid = ledgerSum st vid := rfl

theorem ledgerSum_updateProduct (st : State) (pid : Nat) (f : Product → Product) (vid : Nat) :
    ledgerSum (updateProduct st pid f) vid = ledgerSum st vid := rfl

theorem stockOf_updateProduct (st : State) (pid : Nat) (f : Product → Product) (vid : Nat) :
    stockOf (updateProduct st pid f) vid = stockOf st vid := rfl

theorem stockOf_addLog (st : State) (e : InventoryLog) (vid : Nat) :
    stockOf (addLog st e) vid = stockOf st vid := rfl

/-- A found variant matches the id it was looked up by. -/
theorem findVariant_id {st : State} {vid : Nat} {v : Variant}
    (h : findVariant st vid = some v) : v.id = vid := by
  have := List.find?_some h
  simpa using this

/-- Replacing the stock counter of variant `w` by `g` of its old value
changes `stockOf` only at `w`, and only when the variant exists. -/
theorem stockOf_updateVariant_stock (st : State) (w : Nat) (g : Int → Int) (vid : Nat) :
    stockOf (updateVariant st w (fun v => { v with stock_quantity := g v.stock_quantity })) vid
      = if vid = w then
          (match findVariant st vid with
           | some v => g v.stock_quantity
           | none => 0)
        else stockOf st vid := by
  unfold stockOf
  rw [findVariant_updateVariant st w vid
    (fun v => { v with stock_quantity := g v.stock_quantity }) (fun v => rfl)]
  cases hfv : findVariant st vid with
  | none =>
    by_cases hw : vid = w
    · simp [hw]
    · simp [hw]
  | some v =>
    have hid := findVariant_id hfv
    by_cases hw : vid = w
    · subst hw
      simp [hid]
    · simp [hid, hw]

/-! ### Facts about the debit / credit primitives -/

theorem findVariant_debitStock (st : State) (w : Nat) (q : Nat) (note : String) (vid : Nat) :
    findVariant (debitStock st w q note) vid =
      (findVariant st vid).map (fun v =>
        if v.id == w then { v with stock_quantity := v.stock_quantity - q } else v) := by
  unfold debitStock
  rw [findVariant_addLog, findVariant_updateVariant st w vid
    (fun v => { v with stock_quantity := v.stock_quantity - q }) (fun v => rfl)]

theorem findVariant_creditStock (st : State) (w : Nat) (q : Nat) (oid : Nat)
    (note : String) (vid : Nat) :
    findVariant (creditStock st w q oid note) vid =
      (findVariant st vid).map (fun v =>
        if v.id == w then { v with stock_quantity := v.stock_quantity + q } else v) := by
  unfold creditStock
  rw [findVariant_addLog, findVariant_updateVariant st w vid
    (fun v => { v with stock_quantity := v.stock_quantity + q }) (fun v => rfl)]

theorem stockOf_of_findVariant_map {st st' : State} {vid : Nat}
    (g : Variant → Variant)
    (h : findVariant st' vid = (findVariant st vid).map g) :
    stockOf st' vid = match findVariant st vid with
      | some v => (g v).stock_quantity
      | none => 0 := by
  unfold stockOf
  rw [h]
  cases findVariant st vid <;> rfl

theorem ledgerSum_debitStock (st : State) (w : Nat) (q : Nat) (note : String) (vid : Nat) :
    ledgerSum (debitStock st w q note) vid =
      ledgerSum st vid + (if w == vid then -(q : Int) else 0) := by
  unfold debitStock
  rw [ledgerSum_addLog, ledgerSum_updateVariant]

theorem ledgerSum_creditStock (st : State) (w : Nat) (q : Nat) (oid : Nat)
    (note : String) (vid : Nat) :
    ledgerSum (creditStock st w q oid note) vid =
      ledgerSum st vid + (if w == vid then (q : Int) else 0) := by
  unfold creditStock
  rw [ledgerSum_addLog, ledgerSum_updateVariant]

/-- The ledger/counter balance `stockOf - ledgerSum` is unchanged by a
debit of an existing variant. -/
theorem balance_debitStock {st : State} {w : Nat} {v : Variant}
    (hw : findVariant st w = some v) (q : Nat) (note : String) (vid : Nat) :
    stockOf (debitStock st w q note) vid - ledgerSum (debitStock st w q note) vid
      = stockOf st vid - ledgerSum st vid := by
  have hs := stockOf_of_findVariant_map _ (findVariant_debitStock st w q note vid)
  rw [hs, ledgerSum_debitStock]
  by_cases h : vid = w
  · subst h
    rw [hw]
    have hid : v.id = vid := findVariant_id hw
    simp only [hid, beq_self_eq_true, if_true]
    unfold stockOf
    rw [hw]
    ring
  · have hb : (w == vid) = false := by
      simp only [beq_eq_false_iff_ne, ne_eq]
      exact fun hh => h hh.symm
    cases hfv : findVariant st vid with
    | none =>
      unfold stockOf
      rw [hfv]
      simp [hb]
    | some u =>
      have hid : u.id = vid := findVariant_id hfv
      have hne : (u.id == w) = false := by
        simp only [beq_eq_false_iff_ne, ne_eq, hid]
        exact h
      unfold stockOf
      rw [hfv]
      simp [hb, hne]

/-- The ledger/counter balance is unchanged by a credit of an existing
variant. -/
theorem balance_creditStock {st : State} {w : Nat} {v : Variant}
    (hw : findVariant st w = some v) (q : Nat) (oid : Nat) (note : String) (vid : Nat) :
    stockOf (creditStock st w q oid note) vid - ledgerSum (creditStock st w q oid note) vid
      = stockOf st vid - ledgerSum st vid := by
  have hs := stockOf_of_findVariant_map _ (findVariant_creditStock st w q oid note vid)
  rw [hs, ledgerSum_creditStock]
  by_cases h : vid = w
  · subst h
    rw [hw]
    have hid : v.id = vid := findVariant_id hw
    simp only [hid, beq_self_eq_true, if_true]
    unfold stockOf
    rw [hw]
    ring
  · have hb : (w == vid) = false := by
      simp only [beq_eq_false_iff_ne, ne_eq]
      exact fun hh => h hh.symm
    cases hfv : findVariant st vid with
    | none =>
      unfold stockOf
      rw [hfv]
      simp [hb]
    | some u =>
      have hid : u.id = vid := findVariant_id hfv
      have hne : (u.id == w) = false := by
        simp only [beq_eq_false_iff_ne, ne_eq, hid]
        exact h
      unfold stockOf
      rw [hfv]
      simp [hb, hne]

/-! ### Frame reasoning: which state fields the loops leave untouched -/

theorem loopFrame_refl (st : State) : loopFrame st st :=
  ⟨rfl, rfl, rfl, rfl, rfl, rfl, rfl⟩

theorem loopFrame_trans {a b c : State} (h1 : loopFrame a b) (h2 : loopFrame b c) :
    loopFrame a c := by
  obtain ⟨x1, x2, x3, x4, x5, x6, x7⟩ := h1
  obtain ⟨y1, y2, y3, y4, y5, y6, y7⟩ := h2
  exact ⟨y1.trans x1, y2.trans x2, y3.trans x3, y4.trans x4,
    y5.trans x5, y6.trans x6, y7.trans x7⟩

theorem loopFrame_debitStock (st : State) (w q : Nat) (note : String) :
    loopFrame st (debitStock st w q note) :=
  ⟨rfl, rfl, rfl, rfl, rfl, rfl, rfl⟩

theorem loopFrame_creditStock (st : State) (w q oid : Nat) (note : String) :
    loopFrame st (creditStock st w q oid note) :=
  ⟨rfl, rfl, rfl, rfl, rfl, rfl, rfl⟩

theorem loopFrame_updateProduct (st : State) (pid : Nat) (f : Product → Product) :
    loopFrame st (updateProduct st pid f) :=
  ⟨rfl, rfl, rfl, rfl, rfl, rfl, rfl⟩

/-! ### Inverting `Except.map` and `find?` under uniqueness -/

theorem except_map_ok {α β : Type} {e : Except Err α} {f : α → β} {b : β}
    (h : e.map f = .ok b) : ∃ a, e = .ok a ∧ b = f a := by
  cases e with
  | error err => simp [Except.map] at h
  | ok a =>
    refine ⟨a, rfl, ?_⟩
    simpa [Except.map] using h.symm

/-- When variant ids are unique, `find?` by id recovers exactly any
member with that id. -/
theorem find_eq_of_nodup : ∀ (l : List Variant),
    (l.map (fun v => v.id)).Nodup → ∀ v ∈ l,
    l.find? (fun w => w.id == v.id) = some v := by
  intro l
  induction l with
  | nil => intro _ v hv; cases hv
  | cons a t ih =>
    intro hnd v hv
    have hnd' := hnd
    rw [List.map_cons, List.nodup_cons] at hnd'
    obtain ⟨ha, ht⟩ := hnd'
    rcases List.mem_cons.mp hv with rfl | hvt
    · simp
    · have hne : (a.id == v.id) = false := by
        by_cases h : a.id = v.id
        · exact absurd (h ▸ List.mem_map_of_mem (fun w => w.id) hvt) ha
        · simp [h]
      have hp : ¬ ((fun w : Variant => w.id == v.id) a = true) := by
        simp [hne]
      rw [List.find?_cons_of_neg t hp]
      exact ih ht v hvt

theorem variantIds_debitStock (st : State) (w q : Nat) (note : String) :
    (debitStock st w q note).variants.map (fun v => v.id)
      = st.variants.map (fun v => v.id) := by
  unfold debitStock addLog updateVariant
  rw [List.map_map]
  apply List.map_congr_left
  intro v _
  simp only [Function.comp]
  split <;> rfl

theorem variantIds_creditStock (st : State) (w q oid : Nat) (note : String) :
    (creditStock st w q oid note).variants.map (fun v => v.id)
      = st.variants.map (fun v => v.id) := by
  unfold creditStock addLog updateVariant
  rw [List.map_map]
  apply List.map_congr_left
  intro v _
  simp only [Function.comp]
  split <;> rfl

theorem pricesOk_updateProduct_sold (st : State) (pid : Nat) (n : Nat)
    (h : pricesOk st) :
    pricesOk (updateProduct st pid (fun p => { p with total_sold := p.total_sold + n })) := by
  obtain ⟨hp, hv⟩ := h
  constructor
  · intro p' hp'
    obtain ⟨p, hpm, hfe⟩ := List.mem_map.mp hp'
    subst hfe
    by_cases hid : (p.id == pid) = true
    · rw [if_pos hid]
      exact hp p hpm
    · rw [if_neg hid]
      exact hp p hpm
  · intro v hvm q hq
    exact hv v hvm q hq

theorem pricesOk_debitStock (st : State) (w q : Nat) (note : String)
    (h : pricesOk st) : pricesOk (debitStock st w q note) := by
  obtain ⟨hp, hv⟩ := h
  constructor
  · intro p hpm
    exact hp p hpm
  · intro v' hv' q0 hq0
    obtain ⟨v, hvm, hfe⟩ := List.mem_map.mp hv'
    subst hfe
    by_cases hid : (v.id == w) = true
    · rw [if_pos hid] at hq0
      exact hv v hvm q0 hq0
    · rw [if_neg hid] at hq0
      exact hv v hvm q0 hq0

/-- Everything the per-line checkout loop guarantees on success: it only
touches variants, products and the ledger (frame); it preserves the
variant id list; it keeps `stockOf - ledgerSum` constant (every debit is
mirrored by exactly one ledger entry); existing variants survive with
the same activity flag and no larger stock; no processed line can have
requested more than the pre-state stock of its variant; the subtotal is
a nonnegative whole-cent amount; and nonnegative stock is preserved. -/
theorem processItems_ok_spec : ∀ (items : List CheckoutItem) (st st' : State) (sub : ℚ)
    (lines : List LineData), processItems st items = .ok (st', sub, lines) →
    loopFrame st st' ∧
    (st'.variants.map (fun v => v.id) = st.variants.map (fun v => v.id)) ∧
    (∀ vid, stockOf st' vid - ledgerSum st' vid = stockOf st vid - ledgerSum st vid) ∧
    (∀ vid v, findVariant st vid = some v → ∃ v', findVariant st' vid = some v' ∧
      v'.is_active = v.is_active ∧ v'.stock_quantity ≤ v.stock_quantity) ∧
    (∀ ci ∈ items, ∀ vid, truthyId ci.variant_id = some vid →
      ∀ v, findVariant st vid = some v → (ci.quantity : Int) ≤ v.stock_quantity) ∧
    (pricesOk st → pricesOk st' ∧ 0 ≤ sub ∧ isCents sub) ∧
    (variantIdsNodup st → (∀ v ∈ st.variants, 0 ≤ v.stock_quantity) →
      ∀ v ∈ st'.variants, 0 ≤ v.stock_quantity) := by
  intro items
  induction items with
  | nil =>
    intro st st' sub lines h
    simp only [processItems] at h
    obtain ⟨h1, h2, h3⟩ : st = st' ∧ (0 : ℚ) = sub ∧ ([] : List LineData) = lines := by
      simpa using h
    subst h1
    subst h2
    refine ⟨loopFrame_refl st, rfl, fun vid => rfl, ?_, ?_, ?_, ?_⟩
    · exact fun vid v hv => ⟨v, hv, rfl, le_refl _⟩
    · intro ci hci
      cases hci
    · exact fun hp => ⟨hp, le_refl 0, isCents_zero⟩
    · exact fun _ h0 => h0
  | cons ci rest ih =>
    intro st st' sub lines h
    simp only [processItems] at h
    cases hfp : findProduct st ci.product_id with
    | none =>
      simp only [hfp] at h
      exact absurd h (by simp)
    | some product =>
      simp only [hfp] at h
      by_cases hstat : product.status ≠ "active"
      · rw [if_pos hstat] at h
        exact absurd h (by simp)
      · rw [if_neg hstat] at h
        have hpmem : product ∈ st.products := List.mem_of_find?_eq_some hfp
        cases hvid : truthyId ci.variant_id with
        | none =>
          simp only [hvid] at h
          obtain ⟨⟨st4, sub4, lines4⟩, hrec, heq⟩ := except_map_ok h
          obtain ⟨he1, he2, he3⟩ :
              st' = st4 ∧ sub = product.base_price * ci.quantity + sub4 ∧
                lines = ⟨some product.id, none, product.name, product.sku,
                  ci.quantity, product.base_price,
                  product.base_price * ci.quantity⟩ :: lines4 := by
            simpa using heq
          subst he1
          subst he2
          obtain ⟨ihF, ihIds, ihBal, ihEv, ihAsk, ihPr, ihNn⟩ :=
            ih _ st' sub4 lines4 hrec
          refine ⟨loopFrame_trans (loopFrame_updateProduct st ci.product_id _) ihF,
            ihIds, ihBal, ihEv, ?_, ?_, ihNn⟩
          · intro ci' hci' vid0 hvid0 v hv
            rcases List.mem_cons.mp hci' with rfl | hci'
            · rw [hvid0] at hvid
              cases hvid
            · exact ihAsk ci' hci' vid0 hvid0 v hv
          · intro hp
            have hbp := (hp.1 product hpmem)
            obtain ⟨hp4, hs4, hc4⟩ := ihPr (pricesOk_updateProduct_sold st ci.product_id ci.quantity hp)
            refine ⟨hp4, ?_, isCents_add (isCents_mul_nat hbp.2 ci.quantity) hc4⟩
            have : (0 : ℚ) ≤ product.base_price * ci.quantity := by
              have := hbp.1
              positivity
            linarith
        | some vid =>
          simp only [hvid] at h
          cases hfv : findVariant st vid with
          | none =>
            simp only [hfv] at h
            exact absurd h (by simp)
          | some variant =>
            simp only [hfv] at h
            by_cases hact : ¬ variant.is_active = true
            · rw [if_pos hact] at h
              exact absurd h (by simp)
            · rw [if_neg hact] at h
              by_cases hstk : variant.stock_quantity < (ci.quantity : Int)
              · rw [if_pos hstk] at h
                exact absurd h (by simp)
              · rw [if_neg hstk] at h
                obtain ⟨⟨st4, sub4, lines4⟩, hrec, heq⟩ := except_map_ok h
                set up := variant.price.getD product.base_price with hup
                obtain ⟨he1, he2, he3⟩ :
                    st' = st4 ∧ sub = up * ci.quantity + sub4 ∧
                      lines = ⟨some product.id, some vid, product.name,
                        (match truthyStr variant.sku with
                          | some s => some s
                          | none => product.sku),
                        ci.quantity, up, up * ci.quantity⟩ :: lines4 := by
                  simpa using heq
                subst he1
                subst he2
                obtain ⟨ihF, ihIds, ihBal, ihEv, ihAsk, ihPr, ihNn⟩ :=
                  ih _ st' sub4 lines4 hrec
                -- the state after the head line
                set stD := debitStock st vid ci.quantity "Order placed" with hstD
                have hidsD : stD.variants.map (fun v => v.id)
                    = st.variants.map (fun v => v.id) :=
                  variantIds_debitStock st vid ci.quantity "Order placed"
                have hfvD : ∀ vid0, findVariant stD vid0 =
                    (findVariant st vid0).map (fun v =>
                      if v.id == vid then
                        { v with stock_quantity := v.stock_quantity - ci.quantity }
                      else v) :=
                  fun vid0 => findVariant_debitStock st vid ci.quantity "Order placed" vid0
                refine ⟨loopFrame_trans (loopFrame_trans
                    (loopFrame_debitStock st vid ci.quantity "Order placed")
                    (loopFrame_updateProduct stD ci.product_id _)) ihF,
                  ihIds.trans hidsD, ?_, ?_, ?_, ?_, ?_⟩
                · intro vid0
                  have hb := balance_debitStock hfv ci.quantity "Order placed" vid0
                  calc stockOf st' vid0 - ledgerSum st' vid0
                      = stockOf stD vid0 - ledgerSum stD vid0 := ihBal vid0
                    _ = stockOf st vid0 - ledgerSum st vid0 := hb
                · intro vid0 v hv
                  have hv' : findVariant stD vid0 = some (if v.id == vid then
                      { v with stock_quantity := v.stock_quantity - ci.quantity }
                      else v) := by
                    rw [hfvD vid0, hv]
                    rfl
                  obtain ⟨v'', hv'', hact'', hle''⟩ := ihEv vid0 _ hv'
                  refine ⟨v'', hv'', ?_, ?_⟩
                  · rw [hact'']
                    split <;> rfl
                  · refine le_trans hle'' ?_
                    split
                    · simp
                    · exact le_refl _
                · intro ci' hci' vid0 hvid0 v hv
                  rcases List.mem_cons.mp hci' with rfl | hci'
                  · rw [hvid0] at hvid
                    cases hvid
                    have : v = variant := by
                      rw [hv] at hfv
                      exact (Option.some.injEq _ _).mp hfv
                    subst this
                    exact Int.not_lt.mp hstk
                  · have hv' : findVariant stD vid0 = some (if v.id == vid then
                        { v with stock_quantity := v.stock_quantity - ci.quantity }
                        else v) := by
                      rw [hfvD vid0, hv]
                      rfl
                    have := ihAsk ci' hci' vid0 hvid0 _ hv'
                    refine le_trans this ?_
                    split
                    · simp
                    · exact le_refl _
                · intro hp
                  have hpD : pricesOk stD :=
                    pricesOk_debitStock st vid ci.quantity "Order placed" hp
                  obtain ⟨hp4, hs4, hc4⟩ := ihPr
                    (pricesOk_updateProduct_sold stD ci.product_id ci.quantity hpD)
                  have hvmem : variant ∈ st.variants := List.mem_of_find?_eq_some hfv
                  have hupOk : 0 ≤ up ∧ isCents up := by
                    rw [hup]
                    cases hpr : variant.price with
                    | none =>
                      simpa using hp.1 product hpmem
                    | some q0 =>
                      simpa using hp.2 variant hvmem q0 hpr
                  refine ⟨hp4, ?_, isCents_add (isCents_mul_nat hupOk.2 ci.quantity) hc4⟩
                  have : (0 : ℚ) ≤ up * ci.quantity := by
                    have := hupOk.1
                    positivity
                  linarith
                · intro hnd h0
                  have hndD : variantIdsNodup stD := by
                    unfold variantIdsNodup
                    rw [hidsD]
                    exact hnd
                  have h0D : ∀ v ∈ stD.variants, 0 ≤ v.stock_quantity := by
                    intro v' hv'
                    obtain ⟨v, hvm, hfe⟩ := List.mem_map.mp hv'
                    subst hfe
                    by_cases hid : (v.id == vid) = true
                    · rw [if_pos hid]
                      have hveq : v = variant := by
                        have hvidv : v.id = vid := by simpa using hid
                        have hfind := find_eq_of_nodup st.variants hnd v hvm
                        rw [hvidv] at hfind
                        have hfind' : findVariant st vid = some v := hfind
                        rw [hfv] at hfind'
                        exact ((Option.some.injEq _ _).mp hfind').symm
                      subst hveq
                      simp only
                      omega
                    · rw [if_neg hid]
                      exact h0 v hvm
                  exact ihNn hndD h0D

/-- The admin order-creation loop: frame, id preservation, ledger/counter
balance, and stock nonnegativity, as for the checkout loop. -/
theorem processAdminItems_ok_spec : ∀ (items : List AdminOrderItemCreate)
    (st st' : State) (sub : ℚ) (lines : List LineData),
    processAdminItems st items = .ok (st', sub, lines) →
    loopFrame st st' ∧
    (st'.variants.map (fun v => v.id) = st.variants.map (fun v => v.id)) ∧
    (∀ vid, stockOf st' vid - ledgerSum st' vid = stockOf st vid - ledgerSum st vid) ∧
    (variantIdsNodup st → (∀ v ∈ st.variants, 0 ≤ v.stock_quantity) →
      ∀ v ∈ st'.variants, 0 ≤ v.stock_quantity) := by
  intro items
  induction items with
  | nil =>
    intro st st' sub lines h
    simp only [processAdminItems] at h
    obtain ⟨h1, h2, h3⟩ : st = st' ∧ (0 : ℚ) = sub ∧ ([] : List LineData) = lines := by
      simpa using h
    subst h1
    exact ⟨loopFrame_refl st, rfl, fun vid => rfl, fun _ h0 => h0⟩
  | cons it rest ih =>
    intro st st' sub lines h
    simp only [processAdminItems] at h
    cases hpid : truthyId it.product_id with
    | none =>
      simp only [hpid] at h
      cases hcn : truthyStr it.custom_name with
      | none =>
        simp only [hcn] at h
        exact absurd h (by simp)
      | some nm =>
        simp only [hcn] at h
        cases hcp : it.custom_price with
        | none =>
          simp only [hcp] at h
          exact absurd h (by simp)
        | some price =>
          simp only [hcp] at h
          obtain ⟨⟨st4, sub4, lines4⟩, hrec, heq⟩ := except_map_ok h
          obtain ⟨he1, he2, he3⟩ :
              st' = st4 ∧ sub = price * it.quantity + sub4 ∧
                lines = ⟨none, none, nm, none, it.quantity, price,
                  price * it.quantity⟩ :: lines4 := by
            simpa using heq
          subst he1
          exact ih _ st' sub4 lines4 hrec
    | some pid =>
      simp only [hpid] at h
      cases hfp : findProduct st pid with
      | none =>
        simp only [hfp] at h
        exact absurd h (by simp)
      | some product =>
        simp only [hfp] at h
        cases hvid : truthyId it.variant_id with
        | none =>
          simp only [hvid] at h
          obtain ⟨⟨st4, sub4, lines4⟩, hrec, heq⟩ := except_map_ok h
          obtain ⟨he1, he2, he3⟩ :
              st' = st4 ∧ sub = product.base_price * it.quantity + sub4 ∧
                lines = ⟨some product.id, none, product.name, product.sku,
                  it.quantity, product.base_price,
                  product.base_price * it.quantity⟩ :: lines4 := by
            simpa using heq
          subst he1
          obtain ⟨ihF, ihIds, ihBal, ihNn⟩ := ih _ st' sub4 lines4 hrec
          exact ⟨loopFrame_trans (loopFrame_updateProduct st pid _) ihF,
            ihIds, ihBal, ihNn⟩
        | some vid =>
          simp only [hvid] at h
          cases hfv : findVariant st vid with
          | none =>
            simp only [hfv] at h
            exact absurd h (by simp)
          | some variant =>
            simp only [hfv] at h
            by_cases hstk : variant.stock_quantity < (it.quantity : Int)
            · rw [if_pos hstk] at h
              exact absurd h (by simp)
            · rw [if_neg hstk] at h
              obtain ⟨⟨st4, sub4, lines4⟩, hrec, heq⟩ := except_map_ok h
              set up := variant.price.getD product.base_price with hup
              obtain ⟨he1, he2, he3⟩ :
                  st' = st4 ∧ sub = up * it.quantity + sub4 ∧
                    lines = ⟨some product.id, some vid, product.name,
                      (match truthyStr variant.sku with
                        | some s => some s
                        | none => product.sku),
                      it.quantity, up, up * it.quantity⟩ :: lines4 := by
                simpa using heq
              subst he1
              obtain ⟨ihF, ihIds, ihBal, ihNn⟩ := ih _ st' sub4 lines4 hrec
              set stD := debitStock st vid it.quantity "Admin-created order" with hstD
              have hidsD : stD.variants.map (fun v => v.id)
                  = st.variants.map (fun v => v.id) :=
                variantIds_debitStock st vid it.quantity "Admin-created order"
              refine ⟨loopFrame_trans (loopFrame_trans
                  (loopFrame_debitStock st vid it.quantity "Admin-created order")
                  (loopFrame_updateProduct stD pid _)) ihF,
                ihIds.trans hidsD, ?_, ?_⟩
              · intro vid0
                have hb := balance_debitStock hfv it.quantity "Admin-created order" vid0
                calc stockOf st' vid0 - ledgerSum st' vid0
                    = stockOf stD vid0 - ledgerSum stD vid0 := ihBal vid0
                  _ = stockOf st vid0 - ledgerSum st vid0 := hb
              · intro hnd h0
                have hndD : variantIdsNodup stD := by
                  unfold variantIdsNodup
                  rw [hidsD]
                  exact hnd
                have h0D : ∀ v ∈ stD.variants, 0 ≤ v.stock_quantity := by
                  intro v' hv'
                  obtain ⟨v, hvm, hfe⟩ := List.mem_map.mp hv'
                  subst hfe
                  by_cases hid : (v.id == vid) = true
                  · rw [if_pos hid]
                    have hveq : v = variant := by
                      have hvidv : v.id = vid := by simpa using hid
                      have hfind := find_eq_of_nodup st.variants hnd v hvm
                      rw [hvidv] at hfind
                      have hfind' : findVariant st vid = some v := hfind
                      rw [hfv] at hfind'
                      exact ((Option.some.injEq _ _).mp hfind').symm
                    subst hveq
                    simp only
                    omega
                  · rw [if_neg hid]
                    exact h0 v hvm
                exact ihNn hndD h0D

/-- The cancellation restore loop: frame, id preservation, ledger/counter
balance, and stock nonnegativity (credits only add). -/
theorem restoreInventory_spec : ∀ (items : List OrderItem) (st : State) (order : Order),
    loopFrame st (restoreInventory st order items) ∧
    ((restoreInventory st order items).variants.map (fun v => v.id)
      = st.variants.map (fun v => v.id)) ∧
    (∀ vid, stockOf (restoreInventory st order items) vid
        - ledgerSum (restoreInventory st order items) vid
      = stockOf st vid - ledgerSum st vid) ∧
    ((∀ v ∈ st.variants, 0 ≤ v.stock_quantity) →
      ∀ v ∈ (restoreInventory st order items).variants, 0 ≤ v.stock_quantity) := by
  intro items
  induction items with
  | nil =>
    intro st order
    exact ⟨loopFrame_refl st, rfl, fun vid => rfl, fun h0 => h0⟩
  | cons item rest ih =>
    intro st order
    cases hvid : truthyId item.variant_id with
    | none =>
      simp only [restoreInventory, hvid]
      exact ih st order
    | some vid =>
      cases hfv : findVariant st vid with
      | none =>
        simp only [restoreInventory, hvid, hfv]
        exact ih st order
      | some variant =>
        simp only [restoreInventory, hvid, hfv]
        set note := "Order " ++ order.order_number ++ " cancelled" with hnote
        set stC := creditStock st vid item.quantity order.id note with hstC
        obtain ⟨ihF, ihIds, ihBal, ihNn⟩ := ih stC order
        have hidsC : stC.variants.map (fun v => v.id)
            = st.variants.map (fun v => v.id) :=
          variantIds_creditStock st vid item.quantity order.id note
        refine ⟨loopFrame_trans (loopFrame_creditStock st vid item.quantity order.id note) ihF,
          ihIds.trans hidsC, ?_, ?_⟩
        · intro vid0
          have hb := balance_creditStock hfv item.quantity order.id note vid0
          calc stockOf (restoreInventory stC order rest) vid0
              - ledgerSum (restoreInventory stC order rest) vid0
              = stockOf stC vid0 - ledgerSum stC vid0 := ihBal vid0
            _ = stockOf st vid0 - ledgerSum st vid0 := hb
        · intro h0
          apply ihNn
          intro v' hv'
          obtain ⟨v, hvm, hfe⟩ := List.mem_map.mp hv'
          subst hfe
          by_cases hid : (v.id == vid) = true
          · rw [if_pos hid]
            have := h0 v hvm
            simp only
            omega
          · rw [if_neg hid]
            exact h0 v hvm

theorem except_bind_ok {α β : Type} {e : Except Err α} {f : α → Except Err β} {b : β}
    (h : (e >>= f) = .ok b) : ∃ a, e = .ok a ∧ f a = .ok b := by
  cases e with
  | error err => simp [Bind.bind, Except.bind] at h
  | ok a =>
    refine ⟨a, rfl, ?_⟩
    simpa [Bind.bind, Except.bind] using h

/-- Inversion of `place_order_finish` on success: the duplicate check
passed, the persisted order's fields, and the projections of the final
state. -/
theorem place_order_finish_ok {st1 : State} {rand : List Char} {user : Option Nat}
    {data : CheckoutRequest} {subtotal : ℚ} {lines : List LineData}
    {disc : ℚ} {cid : Option Nat} {ccode : Option String} {st' : State} {o : Order}
    (h : place_order_finish st1 rand user data subtotal lines disc cid ccode
      = .ok (st', o)) :
    st1.orders.any (fun o0 => o0.order_number == generate_order_number rand) = false ∧
    o = { id := st1.next_order_id, order_number := generate_order_number rand,
          user_id := user,
          guest_email := if user.isSome then none else data.guest_email,
          status := "pending", payment_status := "pending",
          subtotal := subtotal,
          shipping_cost := if 5000 ≤ subtotal then 0 else 200,
          discount_amount := disc, tax_amount := 0,
          total := subtotal - disc + (if 5000 ≤ subtotal then 0 else 200),
          coupon_id := cid, coupon_code := ccode } ∧
    st'.products = st1.products ∧
    st'.variants = st1.variants ∧
    st'.inventory_log = st1.inventory_log ∧
    st'.orders = st1.orders ++ [o] ∧
    st'.status_history = st1.status_history
      ++ [⟨st1.next_order_id, "pending", some "Order placed", none⟩] ∧
    (∀ uid, user = some uid →
      st'.cart_items = st1.cart_items.filter (fun c => ¬ c.user_id == some uid)) ∧
    (user = none → st'.cart_items = st1.cart_items) := by
  unfold place_order_finish at h
  cases hdup : st1.orders.any (fun o0 => o0.order_number == generate_order_number rand) with
  | true =>
    simp only [hdup] at h
    exact absurd h (by simp)
  | false =>
    simp only [hdup] at h
    refine ⟨rfl, ?_⟩
    cases user with
    | none =>
      cases hcid : truthyId cid with
      | none =>
        simp only [hcid] at h
        injection h with h'
        injection h' with hst ho
        subst ho
        rw [← hst]
        exact ⟨rfl, rfl, rfl, rfl, rfl, rfl,
          fun uid hu => absurd hu (by simp), fun _ => rfl⟩
      | some c0 =>
        simp only [hcid] at h
        injection h with h'
        injection h' with hst ho
        subst ho
        rw [← hst]
        exact ⟨rfl, rfl, rfl, rfl, rfl, rfl,
          fun uid hu => absurd hu (by simp), fun _ => rfl⟩
    | some uid =>
      cases hcid : truthyId cid with
      | none =>
        simp only [hcid] at h
        injection h with h'
        injection h' with hst ho
        subst ho
        rw [← hst]
        refine ⟨rfl, rfl, rfl, rfl, rfl, rfl, ?_, fun hu => absurd hu (by simp)⟩
        intro uid' hu
        have : uid' = uid := by
          injection hu.symm
        subst this
        rfl
      | some c0 =>
        simp only [hcid] at h
        injection h with h'
        injection h' with hst ho
        subst ho
        rw [← hst]
        refine ⟨rfl, rfl, rfl, rfl, rfl, rfl, ?_, fun hu => absurd hu (by simp)⟩
        intro uid' hu
        have : uid' = uid := by
          injection hu.symm
        subst this
        rfl

/-- Inversion of `place_order_core` on success: the intermediate loop
state, the coupon outcome, the persisted order's fields, and the
projections of the final state. -/
theorem place_order_core_ok {st : State} {now : Int} {rand : List Char} {user : Option Nat}
    {data : CheckoutRequest} {st' : State} {o : Order}
    (h : place_order_core st now rand user data = .ok (st', o)) :
    ∃ st1 sub lines disc cid ccode,
      processItems st data.items = .ok (st1, sub, lines) ∧
      (∀ code, truthyStr data.coupon_code = some code →
        ∃ info, validate_coupon st1 now code user sub = .ok info ∧
          disc = info.discount_amount ∧ cid = some info.coupon_id ∧ ccode = some info.code) ∧
      (truthyStr data.coupon_code = none → disc = 0 ∧ cid = none ∧ ccode = none) ∧
      st1.orders.any (fun o0 => o0.order_number == generate_order_number rand) = false ∧
      o = { id := st1.next_order_id, order_number := generate_order_number rand,
            user_id := user,
            guest_email := if user.isSome then none else data.guest_email,
            status := "pending", payment_status := "pending",
            subtotal := sub,
            shipping_cost := if 5000 ≤ sub then 0 else 200,
            discount_amount := disc, tax_amount := 0,
            total := sub - disc + (if 5000 ≤ sub then 0 else 200),
            coupon_id := cid, coupon_code := ccode } ∧
      st'.products = st1.products ∧
      st'.variants = st1.variants ∧
      st'.inventory_log = st1.inventory_log ∧
      st'.orders = st1.orders ++ [o] ∧
      st'.status_history = st1.status_history
        ++ [⟨st1.next_order_id, "pending", some "Order placed", none⟩] ∧
      (∀ uid, user = some uid →
        st'.cart_items = st1.cart_items.filter (fun c => ¬ c.user_id == some uid)) ∧
      (user = none → st'.cart_items = st1.cart_items) := by
  unfold place_order_core at h
  cases hloop : processItems st data.items with
  | error e =>
    simp only [hloop] at h
    exact absurd h (by simp)
  | ok r =>
    obtain ⟨st1, sub, lines⟩ := r
    simp only [hloop] at h
    cases hcc : truthyStr data.coupon_code with
    | none =>
      simp only [hcc] at h
      obtain ⟨hdup, ho, hrest⟩ := place_order_finish_ok h
      refine ⟨st1, sub, lines, 0, none, none, rfl, ?_, ?_, hdup, ho, hrest⟩
      · intro code hc
        exact absurd hc (by simp)
      · intro _
        exact ⟨rfl, rfl, rfl⟩
    | some code =>
      simp only [hcc] at h
      cases hval : validate_coupon st1 now code user sub with
      | error e =>
        simp only [hval] at h
        exact absurd h (by simp)
      | ok info =>
        simp only [hval] at h
        obtain ⟨hdup, ho, hrest⟩ := place_order_finish_ok h
        refine ⟨st1, sub, lines, info.discount_amount, some info.coupon_id,
          some info.code, rfl, ?_, ?_, hdup, ho, hrest⟩
        · intro code' hc
          have : code' = code := by
            injection hc.symm
          subst this
          exact ⟨info, hval, rfl, rfl, rfl⟩
        · intro hc
          exact absurd hc (by simp)

theorem stockOf_congr {st st' : State} (h : st'.variants = st.variants) (vid : Nat) :
    stockOf st' vid = stockOf st vid := by
  unfold stockOf findVariant
  rw [h]

theorem ledgerSum_congr {st st' : State} (h : st'.inventory_log = st.inventory_log) (vid : Nat) :
    ledgerSum st' vid = ledgerSum st vid := by
  unfold ledgerSum
  rw [h]

/-- Inversion of `admin_create_order_core` on success. -/
theorem admin_create_order_core_ok {st : State} {rand : List Char} {admin_id : Nat}
    {data : AdminOrderCreate} {st' : State} {o : Order}
    (h : admin_create_order_core st rand admin_id data = .ok (st', o)) :
    ∃ st1 sub lines,
      processAdminItems st data.items = .ok (st1, sub, lines) ∧
      st1.orders.any (fun o0 => o0.order_number == generate_order_number rand) = false ∧
      o = { id := st1.next_order_id, order_number := generate_order_number rand,
            user_id := data.customer_id, guest_email := none,
            status := "pending", payment_status := "pending",
            subtotal := sub, shipping_cost := data.shipping_cost,
            discount_amount := data.discount_amount, tax_amount := 0,
            total := max (sub - data.discount_amount + data.shipping_cost) 0,
            coupon_id := none, coupon_code := none } ∧
      st'.products = st1.products ∧
      st'.variants = st1.variants ∧
      st'.inventory_log = st1.inventory_log ∧
      st'.orders = st1.orders ++ [o] ∧
      st'.cart_items = st1.cart_items := by
  unfold admin_create_order_core at h
  cases hloop : processAdminItems st data.items with
  | error e =>
    simp only [hloop] at h
    exact absurd h (by simp)
  | ok r =>
    obtain ⟨st1, sub, lines⟩ := r
    simp only [hloop] at h
    cases hdup : st1.orders.any (fun o0 => o0.order_number == generate_order_number rand) with
    | true =>
      simp only [hdup] at h
      exact absurd h (by simp)
    | false =>
      simp only [hdup] at h
      injection h with h'
      injection h' with hst ho
      subst ho
      rw [← hst]
      exact ⟨st1, sub, lines, rfl, hdup, rfl, rfl, rfl, rfl, rfl, rfl⟩

theorem variantIds_updateVariant (st : State) (w : Nat) (f : Variant → Variant)
    (hf : ∀ v, (f v).id = v.id) :
    (updateVariant st w f).variants.map (fun v => v.id)
      = st.variants.map (fun v => v.id) := by
  unfold updateVariant
  rw [List.map_map]
  apply List.map_congr_left
  intro v _
  simp only [Function.comp]
  split
  · exact hf v
  · rfl

/-- The ledger/counter balance is unchanged when a variant's counter is
set to `n` and an entry for the difference `c = n - old` is written. -/
theorem balance_adjust {st : State} {w : Nat} {v : Variant}
    (hw : findVariant st w = some v) (n c : Int) (hnc : n = v.stock_quantity + c)
    (r : String) (ref : Option Nat) (note : Option String) (vid : Nat) :
    stockOf (addLog (updateVariant st w (fun u => { u with stock_quantity := n }))
        ⟨w, c, r, ref, note⟩) vid
      - ledgerSum (addLog (updateVariant st w (fun u => { u with stock_quantity := n }))
        ⟨w, c, r, ref, note⟩) vid
      = stockOf st vid - ledgerSum st vid := by
  have hmap : findVariant (addLog (updateVariant st w
        (fun u => { u with stock_quantity := n })) ⟨w, c, r, ref, note⟩) vid
      = (findVariant st vid).map (fun u => if u.id == w then
          { u with stock_quantity := n } else u) := by
    rw [findVariant_addLog, findVariant_updateVariant st w vid
      (fun u => { u with stock_quantity := n }) (fun u => rfl)]
  have hs := stockOf_of_findVariant_map _ hmap
  rw [hs, ledgerSum_addLog, ledgerSum_updateVariant]
  by_cases h : vid = w
  · subst h
    have hid : v.id = vid := findVariant_id hw
    have hsv : stockOf st vid = v.stock_quantity := by
      unfold stockOf
      rw [hw]
    rw [hw, hsv]
    simp only [hid, beq_self_eq_true, if_true]
    omega
  · have hb : (w == vid) = false := by
      simp only [beq_eq_false_iff_ne, ne_eq]
      exact fun hh => h hh.symm
    cases hfv : findVariant st vid with
    | none =>
      have hsv : stockOf st vid = 0 := by
        unfold stockOf
        rw [hfv]
      rw [hsv]
      simp [hb]
    | some u =>
      have hid : u.id = vid := findVariant_id hfv
      have hne : (u.id == w) = false := by
        simp only [beq_eq_false_iff_ne, ne_eq, hid]
        exact h
      have hsv : stockOf st vid = u.stock_quantity := by
        unfold stockOf
        rw [hfv]
      rw [hsv]
      simp [hb, hne]

/-- Every operation of the transactional core preserves the variant id
list, keeps `stockOf - ledgerSum` constant at every variant (every
accepted stock mutation is mirrored by exactly one ledger entry of the
same signed size), and preserves nonnegative stock. -/
theorem runOp_spec (st : State) (op : Op) :
    ((runOp st op).variants.map (fun v => v.id) = st.variants.map (fun v => v.id)) ∧
    (∀ vid, stockOf (runOp st op) vid - ledgerSum (runOp st op) vid
      = stockOf st vid - ledgerSum st vid) ∧
    (variantIdsNodup st → (∀ v ∈ st.variants, 0 ≤ v.stock_quantity) →
      ∀ v ∈ (runOp st op).variants, 0 ≤ v.stock_quantity) := by
  cases op with
  | checkout now rand user data =>
    simp only [runOp, place_order, runTx]
    cases hcore : place_order_core st now rand user data with
    | error e =>
      exact ⟨rfl, fun vid => rfl, fun _ h0 => h0⟩
    | ok p =>
      obtain ⟨st', o⟩ := p
      obtain ⟨st1, sub, lines, disc, cid, ccode, hloop, _, _, _, _, _, hvars, hlog, _⟩ :=
        place_order_core_ok hcore
      obtain ⟨_, lIds, lBal, _, _, _, lNn⟩ :=
        processItems_ok_spec data.items st st1 sub lines hloop
      have c1 : st'.variants.map (fun v => v.id) = st.variants.map (fun v => v.id) := by
        rw [hvars]
        exact lIds
      have c2 : ∀ vid, stockOf st' vid - ledgerSum st' vid
          = stockOf st vid - ledgerSum st vid := by
        intro vid
        rw [stockOf_congr hvars, ledgerSum_congr hlog]
        exact lBal vid
      have c3 : variantIdsNodup st → (∀ v ∈ st.variants, 0 ≤ v.stock_quantity) →
          ∀ v ∈ st'.variants, 0 ≤ v.stock_quantity := by
        intro hnd h0 v hv
        rw [hvars] at hv
        exact lNn hnd h0 v hv
      exact ⟨c1, c2, c3⟩
  | adminCreate rand admin_id data =>
    simp only [runOp, admin_create_order, runTx]
    cases hcore : admin_create_order_core st rand admin_id data with
    | error e =>
      exact ⟨rfl, fun vid => rfl, fun _ h0 => h0⟩
    | ok p =>
      obtain ⟨st', o⟩ := p
      obtain ⟨st1, sub, lines, hloop, _, _, _, hvars, hlog, _, _⟩ :=
        admin_create_order_core_ok hcore
      obtain ⟨_, lIds, lBal, lNn⟩ :=
        processAdminItems_ok_spec data.items st st1 sub lines hloop
      have c1 : st'.variants.map (fun v => v.id) = st.variants.map (fun v => v.id) := by
        rw [hvars]
        exact lIds
      have c2 : ∀ vid, stockOf st' vid - ledgerSum st' vid
          = stockOf st vid - ledgerSum st vid := by
        intro vid
        rw [stockOf_congr hvars, ledgerSum_congr hlog]
        exact lBal vid
      have c3 : variantIdsNodup st → (∀ v ∈ st.variants, 0 ≤ v.stock_quantity) →
          ∀ v ∈ st'.variants, 0 ≤ v.stock_quantity := by
        intro hnd h0 v hv
        rw [hvars] at hv
        exact lNn hnd h0 v hv
      exact ⟨c1, c2, c3⟩
  | adjust w q reason note =>
    simp only [runOp, adjust_stock, runTx, adjust_stock_core]
    cases hfv : findVariant st w with
    | none =>
      exact ⟨rfl, fun vid => rfl, fun _ h0 => h0⟩
    | some variant =>
      simp only
      by_cases hneg : variant.stock_quantity + q < 0
      · rw [if_pos hneg]
        exact ⟨rfl, fun vid => rfl, fun _ h0 => h0⟩
      · rw [if_neg hneg]
        refine ⟨?_, ?_, ?_⟩
        · exact variantIds_updateVariant st w _ (fun v => rfl)
        · intro vid
          exact balance_adjust hfv (variant.stock_quantity + q) q rfl reason none note vid
        · intro hnd h0 v' hv'
          obtain ⟨v, hvm, hfe⟩ := List.mem_map.mp hv'
          subst hfe
          by_cases hid : (v.id == w) = true
          · rw [if_pos hid]
            simp only
            omega
          · rw [if_neg hid]
            exact h0 v hvm
  | cancel number uid =>
    simp only [runOp, cancel_order, runTx, cancel_order_core]
    cases hfind : findOrderByNumber st number uid with
    | none =>
      exact ⟨rfl, fun vid => rfl, fun _ h0 => h0⟩
    | some order =>
      dsimp only
      by_cases hstat : order.status ≠ "pending" ∧ order.status ≠ "confirmed"
      · rw [if_pos hstat]
        exact ⟨rfl, fun vid => rfl, fun _ h0 => h0⟩
      · rw [if_neg hstat]
        obtain ⟨rF, rIds, rBal, rNn⟩ := restoreInventory_spec (itemsOfOrder st order.id)
          (updateOrder st order.id (fun o0 => { o0 with status := "cancelled" })) order
        exact ⟨rIds, rBal, fun _ h0 => rNn h0⟩
  | setStatus oid status note admin_id =>
    simp only [runOp, update_order_status, runTx, update_order_status_core]
    cases hfind : st.orders.find? (fun o => o.id == oid) with
    | none =>
      exact ⟨rfl, fun vid => rfl, fun _ h0 => h0⟩
    | some order =>
      exact ⟨rfl, fun vid => rfl, fun _ h0 => h0⟩

/-- Inversion of `validate_coupon` on success: some active coupon with
the upper-cased code was found, the subtotal met its minimum, and the
returned discount is exactly `couponDiscount`. -/
theorem validate_coupon_ok {st : State} {now : Int} {code : String}
    {uid : Option Nat} {sub : ℚ} {info : CouponInfo}
    (h : validate_coupon st now code uid sub = .ok info) :
    ∃ coupon, st.coupons.find? (fun c => c.code == strUpper code && c.is_active)
        = some coupon ∧
      ¬ sub < coupon.min_order_amount ∧
      info = { coupon_id := coupon.id, code := coupon.code, type := coupon.type,
               value := coupon.value,
               discount_amount := couponDiscount coupon sub } := by
  unfold validate_coupon at h
  split at h
  · exact absurd h (by simp)
  · rename_i coupon hfind
    split at h
    · exact absurd h (by simp)
    · split at h
      · exact absurd h (by simp)
      · split at h
        · exact absurd h (by simp)
        · split at h
          · exact absurd h (by simp)
          · split at h
            · exact absurd h (by simp)
            · rename_i h5
              injection h with h'
              exact ⟨coupon, hfind, h5, h'.symm⟩

/-- Bounds on the discount: for a well-formed coupon (positive value,
nonnegative cap) and a nonnegative whole-cent subtotal, the discount is
nonnegative and never exceeds the subtotal. -/
theorem couponDiscount_bounds (c : Coupon) (sub : ℚ)
    (hval : 0 < c.value) (hmax : ∀ m, c.max_discount = some m → 0 ≤ m)
    (hs0 : 0 ≤ sub) (hsc : isCents sub) :
    0 ≤ couponDiscount c sub ∧ couponDiscount c sub ≤ sub := by
  unfold couponDiscount
  have hd0 : 0 ≤ (if c.type = "percentage" then
      (match c.max_discount with
       | some m => if m ≠ 0 then min (sub * (c.value / 100)) m
          else sub * (c.value / 100)
       | none => sub * (c.value / 100))
      else c.value) := by
    by_cases ht : c.type = "percentage"
    · rw [if_pos ht]
      have hm0 : 0 ≤ sub * (c.value / 100) := by positivity
      cases hmd : c.max_discount with
      | none => exact hm0
      | some m =>
        dsimp only
        by_cases hm : m ≠ 0
        · rw [if_pos hm]
          exact le_min hm0 (hmax m hmd)
        · rw [if_neg hm]
          exact hm0
    · rw [if_neg ht]
      exact le_of_lt hval
  constructor
  · exact round2_nonneg (le_min hd0 hs0)
  · exact round2_le_of_le_cents hsc (min_le_right _ _)

theorem runTx_snd_ok {α : Type} {st : State} {act : Except Err (State × α)} {a : α}
    (h : (runTx st act).2 = .ok a) : ∃ st', act = .ok (st', a) := by
  cases act with
  | error e =>
    simp [runTx] at h
  | ok p =>
    simp only [runTx] at h
    injection h with h'
    exact ⟨p.1, by rw [← h']⟩

theorem runTx_error_state {α : Type} {st : State} {act : Except Err (State × α)} {e : Err}
    (h : act = .error e) : runTx st act = (st, .error e) := by
  rw [h]
  rfl

/-- Nonnegativity of the shipping fee. -/
theorem shipping_nonneg (sub : ℚ) : 0 ≤ (if 5000 ≤ sub then (0 : ℚ) else 200) := by
  split <;> norm_num

theorem isCents_natCast (n : ℕ) : isCents ((n : ℕ) : ℚ) := by
  rw [show ((n : ℚ)) = (((n : ℤ)) : ℚ) by push_cast; ring]
  exact isCents_intCast n

/-! ### Claim theorems -/

/-- C1 (amended): every order persisted by customer checkout
(`place_order`) satisfies `total = subtotal - discount_amount +
shipping_cost + tax_amount`, `total ≥ 0` and `0 ≤ discount_amount ≤
subtotal` (the latter under well-formed catalog prices and coupons);
an order persisted by `admin_create_order` instead satisfies
`total = max (subtotal - discount_amount + shipping_cost + tax_amount) 0`
and `total ≥ 0` — the stated equality and `discount_amount ≤ subtotal`
are not guaranteed on the admin path, because the admin-supplied
discount is unvalidated and a negative raw total is clamped to zero. -/
theorem claim_C1_amended :
    (∀ (st : State) (now : Int) (rand : List Char) (user : Option Nat)
      (data : CheckoutRequest) (st' : State) (o : Order),
      place_order st now rand user data = (st', .ok o) →
      o.tax_amount = 0 ∧
      o.total = o.subtotal - o.discount_amount + o.shipping_cost + o.tax_amount ∧
      (pricesOk st → couponsOk st →
        0 ≤ o.total ∧ 0 ≤ o.discount_amount ∧ o.discount_amount ≤ o.subtotal)) ∧
    (∀ (st : State) (rand : List Char) (admin_id : Nat) (data : AdminOrderCreate)
      (st' : State) (o : Order),
      admin_create_order st rand admin_id data = (st', .ok o) →
      o.tax_amount = 0 ∧
      o.total = max (o.subtotal - o.discount_amount + o.shipping_cost + o.tax_amount) 0 ∧
      0 ≤ o.total) := by
  constructor
  · intro st now rand user data st' o h
    have h2 : (place_order st now rand user data).2 = .ok o := by
      rw [h]
    unfold place_order at h2
    obtain ⟨st'', hcore⟩ := runTx_snd_ok h2
    obtain ⟨st1, sub, lines, disc, cid, ccode, hloop, hcSome, hcNone, hdup, ho, _⟩ :=
      place_order_core_ok hcore
    subst ho
    refine ⟨rfl, by dsimp only; ring, ?_⟩
    intro hp hc
    obtain ⟨lF, _, _, _, _, lPr, _⟩ := processItems_ok_spec data.items st st1 sub lines hloop
    obtain ⟨hp1, hs0, hsc⟩ := lPr hp
    have hS : 0 ≤ (if 5000 ≤ sub then (0 : ℚ) else 200) := shipping_nonneg sub
    have hdisc : 0 ≤ disc ∧ disc ≤ sub := by
      cases hcc : truthyStr data.coupon_code with
      | none =>
        obtain ⟨hd, _, _⟩ := hcNone hcc
        subst hd
        exact ⟨le_refl 0, hs0⟩
      | some code =>
        obtain ⟨info, hval, hd, _, _⟩ := hcSome code hcc
        obtain ⟨coupon, hfind, hmin, hinfo⟩ := validate_coupon_ok hval
        have hcm : coupon ∈ st.coupons := by
          have := List.mem_of_find?_eq_some hfind
          rw [lF.1] at this
          exact this
        obtain ⟨hval0, hmaxok⟩ := hc coupon hcm
        have hb := couponDiscount_bounds coupon sub hval0 hmaxok hs0 hsc
        have hde : disc = couponDiscount coupon sub := by
          rw [hd, hinfo]
        rw [hde]
        exact hb
    dsimp only
    refine ⟨by linarith [hdisc.1, hdisc.2], hdisc.1, hdisc.2⟩
  · intro st rand admin_id data st' o h
    have h2 : (admin_create_order st rand admin_id data).2 = .ok o := by
      rw [h]
    unfold admin_create_order at h2
    obtain ⟨st'', hcore⟩ := runTx_snd_ok h2
    obtain ⟨st1, sub, lines, hloop, hdup, ho, _⟩ := admin_create_order_core_ok hcore
    subst ho
    refine ⟨rfl, by dsimp only; ring_nf, ?_⟩
    dsimp only
    exact le_max_right _ 0

theorem runTx_pair_ok {α : Type} {st st2 : State} {act : Except Err (State × α)} {a : α}
    (h : runTx st act = (st2, .ok a)) : act = .ok (st2, a) := by
  cases act with
  | error e =>
    simp [runTx] at h
  | ok p =>
    simp only [runTx] at h
    injection h with h1 h2
    injection h2 with h2
    rw [← h1, ← h2]

/-- C3: every stock-changing operation of the core (checkout debit,
admin order creation, admin stock adjustment, cancellation credit,
status update) preserves `stock_quantity ≥ 0` for every variant row
(variant ids being unique, as the primary key guarantees); moreover an
adjustment that would drive the counter below zero is rejected with the
state completely unchanged. -/
theorem claim_C3_stock_never_negative (st : State) (op : Op)
    (hnd : variantIdsNodup st) (h0 : ∀ v ∈ st.variants, 0 ≤ v.stock_quantity) :
    (∀ v ∈ (runOp st op).variants, 0 ≤ v.stock_quantity) ∧
    (∀ vid q reason note variant, findVariant st vid = some variant →
      variant.stock_quantity + q < 0 →
      adjust_stock st vid q reason note
        = (st, .error (.insufficientAdjust variant.stock_quantity q))) := by
  constructor
  · exact (runOp_spec st op).2.2 hnd h0
  · intro vid q reason note variant hfv hneg
    unfold adjust_stock adjust_stock_core
    rw [hfv]
    dsimp only
    rw [if_pos hneg]
    rfl

/-- C4: after any sequence of operations starting from a state with an
empty ledger, every variant's `stock_quantity` equals its initial value
plus the signed sum of all its ledger entries; and every accepted admin
stock adjustment writes exactly one ledger entry whose signed
`quantity_change` equals the change applied to the counter. -/
theorem claim_C4_ledger_balance :
    (∀ (st0 : State) (ops : List Op) (vid : Nat), st0.inventory_log = [] →
      stockOf (runOps st0 ops) vid = stockOf st0 vid + ledgerSum (runOps st0 ops) vid) ∧
    (∀ (st : State) (vid : Nat) (q : Int) (reason : String) (note : Option String)
      (st2 : State) (m : Int), adjust_stock st vid q reason note = (st2, .ok m) →
      st2.inventory_log = st.inventory_log ++ [⟨vid, q, reason, none, note⟩] ∧
      stockOf st2 vid = stockOf st vid + q) := by
  constructor
  · have key : ∀ (ops : List Op) (st : State) (vid : Nat),
        stockOf (runOps st ops) vid - ledgerSum (runOps st ops) vid
          = stockOf st vid - ledgerSum st vid := by
      intro ops
      induction ops with
      | nil => intro st vid; rfl
      | cons op rest ih =>
        intro st vid
        calc stockOf (runOps (runOp st op) rest) vid
            - ledgerSum (runOps (runOp st op) rest) vid
            = stockOf (runOp st op) vid - ledgerSum (runOp st op) vid :=
              ih (runOp st op) vid
          _ = stockOf st vid - ledgerSum st vid := (runOp_spec st op).2.1 vid
    intro st0 ops vid hinit
    have hz : ledgerSum st0 vid = 0 := by
      unfold ledgerSum
      rw [hinit]
      rfl
    have := key ops st0 vid
    omega
  · intro st vid q reason note st2 m h
    have hcore := runTx_pair_ok (show runTx st (adjust_stock_core st vid q reason note)
      = (st2, .ok m) by rw [← h]; rfl)
    unfold adjust_stock_core at hcore
    cases hfv : findVariant st vid with
    | none =>
      rw [hfv] at hcore
      exact absurd hcore (by simp)
    | some variant =>
      rw [hfv] at hcore
      dsimp only at hcore
      by_cases hneg : variant.stock_quantity + q < 0
      · rw [if_pos hneg] at hcore
        exact absurd hcore (by simp)
      · rw [if_neg hneg] at hcore
        injection hcore with h'
        have hst2 : st2 = addLog (updateVariant st vid
            (fun v => { v with stock_quantity := variant.stock_quantity + q }))
            ⟨vid, q, reason, none, note⟩ := by
          have := congrArg Prod.fst h'
          exact this.symm
        subst hst2
        constructor
        · rfl
        · have hmap : findVariant (addLog (updateVariant st vid
              (fun v => { v with stock_quantity := variant.stock_quantity + q }))
              ⟨vid, q, reason, none, note⟩) vid
              = (findVariant st vid).map (fun u => if u.id == vid then
                  { u with stock_quantity := variant.stock_quantity + q } else u) := by
            rw [findVariant_addLog, findVariant_updateVariant st vid vid
              (fun v => { v with stock_quantity := variant.stock_quantity + q })
              (fun v => rfl)]
          have hs := stockOf_of_findVariant_map _ hmap
          rw [hs, hfv]
          have hid : variant.id = vid := findVariant_id hfv
          simp only [hid, beq_self_eq_true, if_true]
          have hsv : stockOf st vid = variant.stock_quantity := by
            unfold stockOf
            rw [hfv]
          rw [hsv]

/-- C10: a successful checkout by a logged-in user deletes exactly that
user's cart rows (so the user's cart is empty afterwards); a failed
checkout leaves the whole state — cart included — unchanged; and a guest
checkout leaves the cart rows untouched. -/
theorem claim_C10_cart_cleared :
    (∀ (st : State) (now : Int) (rand : List Char) (uid : Nat)
      (data : CheckoutRequest) (st' : State) (o : Order),
      place_order st now rand (some uid) data = (st', .ok o) →
      st'.cart_items = st.cart_items.filter (fun c => ¬ c.user_id == some uid) ∧
      ∀ c ∈ st'.cart_items, c.user_id ≠ some uid) ∧
    (∀ (st : State) (now : Int) (rand : List Char) (user : Option Nat)
      (data : CheckoutRequest) (e : Err),
      (place_order st now rand user data).2 = .error e →
      (place_order st now rand user data).1 = st) ∧
    (∀ (st : State) (now : Int) (rand : List Char)
      (data : CheckoutRequest) (st' : State) (o : Order),
      place_order st now rand none data = (st', .ok o) →
      st'.cart_items = st.cart_items) := by
  refine ⟨?_, ?_, ?_⟩
  · intro st now rand uid data st' o h
    have hcore := runTx_pair_ok (show runTx st (place_order_core st now rand (some uid) data)
      = (st', .ok o) by rw [← h]; rfl)
    obtain ⟨st1, sub, lines, disc, cid, ccode, hloop, _, _, _, _, _, _, _, _, _, hcartS, _⟩ :=
      place_order_core_ok hcore
    obtain ⟨lF, _⟩ := processItems_ok_spec data.items st st1 sub lines hloop
    have hc1 : st'.cart_items = st1.cart_items.filter (fun c => ¬ c.user_id == some uid) :=
      hcartS uid rfl
    have hc2 : st1.cart_items = st.cart_items := lF.2.2.2.2.2.1
    constructor
    · rw [hc1, hc2]
    · intro c hc
      rw [hc1] at hc
      have := List.of_mem_filter hc
      simp only [decide_not, Bool.not_eq_true', decide_eq_false_iff_not] at this
      intro hcontra
      exact this (by rw [hcontra]; simp)
  · intro st now rand user data e h
    unfold place_order runTx at h ⊢
    cases hcore : place_order_core st now rand user data with
    | error e' => simp only [hcore]
    | ok p =>
      simp only [hcore] at h
      exact absurd h (by simp)
  · intro st now rand data st' o h
    have hcore := runTx_pair_ok (show runTx st (place_order_core st now rand none data)
      = (st', .ok o) by rw [← h]; rfl)
    obtain ⟨st1, sub, lines, disc, cid, ccode, hloop, _, _, _, _, _, _, _, _, _, _, hcartN⟩ :=
      place_order_core_ok hcore
    obtain ⟨lF, _⟩ := processItems_ok_spec data.items st st1 sub lines hloop
    rw [hcartN rfl, lF.2.2.2.2.2.1]

theorem round2_eq_self_of_natLit (n : ℕ) : round2 ((n : ℕ) : ℚ) = n :=
  round2_eq_of_cents (isCents_natCast n)

/-- C2: a checkout in which some line requests more units than its
variant's current stock always fails, and — the request being one unit
of work — the failed request leaves the entire state unchanged; in the
fixture scenario (stock 3, request 5) the rejection carries an
`insufficientStock` error naming the line's product and the available
quantity, with the state (stock, ledger, coupons, orders) unchanged. -/
theorem claim_C2_insufficient_stock (st : State) (now : Int) (rand : List Char)
    (user : Option Nat) (data : CheckoutRequest) (ci : CheckoutItem) (vid : Nat)
    (v : Variant) (hci : ci ∈ data.items) (hvid : truthyId ci.variant_id = some vid)
    (hv : findVariant st vid = some v) (hover : v.stock_quantity < (ci.quantity : Int)) :
    (∃ e, place_order st now rand user data = (st, .error e)) ∧
    place_order stC2 0 d8 none reqC2 = (stC2, .error (.insufficientStock 3 "Widget")) := by
  constructor
  · cases hcore : place_order_core st now rand user data with
    | error e =>
      exact ⟨e, by unfold place_order; exact runTx_error_state hcore⟩
    | ok p =>
      exfalso
      obtain ⟨st', o⟩ := p
      obtain ⟨st1, sub, lines, disc, cid, ccode, hloop, _⟩ := place_order_core_ok hcore
      obtain ⟨_, _, _, _, lAsk, _, _⟩ := processItems_ok_spec data.items st st1 sub lines hloop
      have := lAsk ci hci vid hvid v hv
      omega
  · norm_num [place_order, runTx, place_order_core, processItems, findProduct,
      findVariant, truthyId, stC2, reqC2, prodW, varC2, baseState, List.find?]

/-- C8: every successful checkout computes `shipping_cost` as 0 at or
above the 5000 free-shipping threshold and as the flat fee 200 below
it, stores `tax_amount = 0`, and `total = subtotal - discount +
shipping_cost`; in particular the fixture with subtotal 4500 and a
fixed 500 coupon totals 4200, and the fixture with subtotal 6000 and a
20% coupon capped at 800 ships free and totals 5200. -/
theorem claim_C8_shipping_and_totals :
    (∀ (st : State) (now : Int) (rand : List Char) (user : Option Nat)
      (data : CheckoutRequest) (st' : State) (o : Order),
      place_order st now rand user data = (st', .ok o) →
      o.shipping_cost = (if 5000 ≤ o.subtotal then 0 else 200) ∧
      o.tax_amount = 0 ∧
      o.total = o.subtotal - o.discount_amount + o.shipping_cost) ∧
    ((place_order stC8a 0 d8 none (reqGuest (some "FLAT500"))).2.toOption.map
      (fun o => (o.subtotal, o.discount_amount, o.shipping_cost, o.total))
      = some (4500, 500, 200, 4200)) ∧
    ((place_order stC8b 0 d8 none (reqGuest (some "SAVE20"))).2.toOption.map
      (fun o => (o.subtotal, o.discount_amount, o.shipping_cost, o.total))
      = some (6000, 800, 0, 5200)) := by
  refine ⟨?_, ?_, ?_⟩
  · intro st now rand user data st' o h
    have hcore := runTx_pair_ok (show runTx st (place_order_core st now rand user data)
      = (st', .ok o) by rw [← h]; rfl)
    obtain ⟨st1, sub, lines, disc, cid, ccode, hloop, _, _, _, ho, _⟩ :=
      place_order_core_ok hcore
    subst ho
    exact ⟨rfl, rfl, by dsimp only⟩
  · have hu : strUpper "FLAT500" = "FLAT500" := by decide
    have h500 : round2 (500 : ℚ) = 500 := by
      have h := round2_eq_self_of_natLit 500
      norm_num at h
      exact h
    have hne : (("FLAT500" : String) = "") = False := by simp
    have hbq : (("FLAT500" : String) == "FLAT500") = true := by decide
    have hfp : (("fixed_amount" : String) = "percentage") = False := by simp
    norm_num [place_order, runTx, place_order_core, processItems, findProduct,
      truthyId, truthyStr, validate_coupon, couponDiscount, place_order_finish,
      generate_order_number, updateProduct, stC8a, reqGuest, prodW, couponFLAT,
      baseState, List.find?, hu, h500, hne, hbq, hfp, Except.map, Except.toOption]
  · have hu : strUpper "SAVE20" = "SAVE20" := by decide
    have h800 : round2 (800 : ℚ) = 800 := by
      have h := round2_eq_self_of_natLit 800
      norm_num at h
      exact h
    have hne : (("SAVE20" : String) = "") = False := by simp
    have hbq : (("SAVE20" : String) == "SAVE20") = true := by decide
    have hfp : (("percentage" : String) = "percentage") = True := by simp
    norm_num [place_order, runTx, place_order_core, processItems, findProduct,
      truthyId, truthyStr, validate_coupon, couponDiscount, place_order_finish,
      generate_order_number, updateProduct, stC8b, reqGuest, prodW, couponSAVE20,
      baseState, List.find?, hu, h800, hne, hbq, hfp, Except.map, Except.toOption]

/-- C9 (amended): an order number is `"MB-"` followed by the eight drawn
digit characters, and every persisted order carries exactly the number
generated for the request; uniqueness, however, is enforced only by the
unique index — when the generated number already exists the checkout
fails, with the failure surfaced to the caller and the state unchanged,
and no new number is generated or retried. -/
theorem claim_C9_order_number_amended :
    (∀ rand : List Char, rand.length = 8 → (∀ c ∈ rand, c.isDigit) →
      ∃ ds : String, generate_order_number rand = "MB-" ++ ds ∧
        ds.length = 8 ∧ ∀ c ∈ ds.data, c.isDigit) ∧
    (∀ (st : State) (now : Int) (rand : List Char) (user : Option Nat)
      (data : CheckoutRequest) (st' : State) (o : Order),
      place_order st now rand user data = (st', .ok o) →
      o.order_number = generate_order_number rand) ∧
    (∀ (st : State) (now : Int) (rand : List Char) (user : Option Nat)
      (data : CheckoutRequest),
      st.orders.any (fun o0 => o0.order_number == generate_order_number rand) = true →
      ∃ e, place_order st now rand user data = (st, .error e)) := by
  refine ⟨?_, ?_, ?_⟩
  · intro rand hlen hdig
    refine ⟨String.mk rand, rfl, ?_, ?_⟩
    · exact hlen
    · intro c hc
      exact hdig c hc
  · intro st now rand user data st' o h
    have hcore := runTx_pair_ok (show runTx st (place_order_core st now rand user data)
      = (st', .ok o) by rw [← h]; rfl)
    obtain ⟨st1, sub, lines, disc, cid, ccode, hloop, _, _, _, ho, _⟩ :=
      place_order_core_ok hcore
    subst ho
    rfl
  · intro st now rand user data hcol
    cases hcore : place_order_core st now rand user data with
    | error e =>
      exact ⟨e, by unfold place_order; exact runTx_error_state hcore⟩
    | ok p =>
      exfalso
      obtain ⟨st', o⟩ := p
      obtain ⟨st1, sub, lines, disc, cid, ccode, hloop, _, _, hdup, _⟩ :=
        place_order_core_ok hcore
      obtain ⟨lF, _⟩ := processItems_ok_spec data.items st st1 sub lines hloop
      rw [lF.2.2.1] at hdup
      rw [hcol] at hdup
      cases hdup

/-- C9, counterexample to the claim as stated: with an order numbered
`MB-00000042` already persisted and the random draw yielding the same
digits again, the checkout is aborted with a surfaced
`duplicateOrderNumber` failure and no state change — no fresh number is
generated and nothing is retried. -/
theorem claim_C9_counterexample :
    place_order stC9 0 d8 none (reqGuest none)
      = (stC9, .error .duplicateOrderNumber) := by
  have hnum : generate_order_number d8 = "MB-00000042" := by decide
  have hbq : (("MB-00000042" : String) == "MB-00000042") = true := by decide
  norm_num [place_order, runTx, place_order_core, processItems, findProduct,
    truthyId, truthyStr, place_order_finish, updateProduct, stC9, reqGuest,
    prodW, oPrev, baseState, List.find?, List.any, hnum, hbq, Except.map]

/-- C7: `validate_coupon` applies its checks fail-fast in exactly the
order (1) an active coupon with the upper-cased code exists — a missing
and an inactive coupon both yield `invalidCouponCode`, distinct from
every later error; (2) the current time lies in the active window;
(3) `used_count < usage_limit` when a positive limit is set; (4) for a
known customer only, that customer's usage-record count is below
`usage_per_customer` (the check is skipped for guests); (5) the subtotal
meets `min_order_amount`; the first failing check alone determines the
returned error, each check having its own distinct error. -/
theorem claim_C7_validation_order (st : State) (now : Int) (code : String)
    (uid : Option Nat) (sub : ℚ) :
    (st.coupons.find? (fun c => c.code == strUpper code && c.is_active) = none →
      validate_coupon st now code uid sub = .error .invalidCouponCode) ∧
    (∀ coupon,
      st.coupons.find? (fun c => c.code == strUpper code && c.is_active) = some coupon →
      ((match coupon.starts_at with
        | some s => decide (now < s)
        | none => false) = true →
        validate_coupon st now code uid sub = .error .couponNotYetActive) ∧
      ((match coupon.starts_at with
        | some s => decide (now < s)
        | none => false) = false →
        ((match coupon.expires_at with
          | some e => decide (e < now)
          | none => false) = true →
          validate_coupon st now code uid sub = .error .couponExpired) ∧
        ((match coupon.expires_at with
          | some e => decide (e < now)
          | none => false) = false →
          ((match coupon.usage_limit with
            | some n => decide (0 < n) && decide (n ≤ coupon.used_count)
            | none => false) = true →
            validate_coupon st now code uid sub = .error .couponUsageLimitReached) ∧
          ((match coupon.usage_limit with
            | some n => decide (0 < n) && decide (n ≤ coupon.used_count)
            | none => false) = false →
            (uid = none →
              (match uid with
               | some u =>
                 decide (coupon.usage_per_customer ≤
                   (st.coupon_usage.filter
                     (fun x => x.coupon_id == coupon.id && x.user_id == u)).length)
               | none => false : Bool) = false) ∧
            ((match uid with
              | some u =>
                decide (coupon.usage_per_customer ≤
                  (st.coupon_usage.filter
                    (fun x => x.coupon_id == coupon.id && x.user_id == u)).length)
              | none => false : Bool) = true →
              validate_coupon st now code uid sub = .error .couponAlreadyUsed) ∧
            ((match uid with
              | some u =>
                decide (coupon.usage_per_customer ≤
                  (st.coupon_usage.filter
                    (fun x => x.coupon_id == coupon.id && x.user_id == u)).length)
              | none => false : Bool) = false →
              (sub < coupon.min_order_amount →
                validate_coupon st now code uid sub
                  = .error (.couponBelowMinimum coupon.min_order_amount)) ∧
              (¬ sub < coupon.min_order_amount →
                validate_coupon st now code uid sub = .ok
                  { coupon_id := coupon.id, code := coupon.code, type := coupon.type,
                    value := coupon.value,
                    discount_amount := couponDiscount coupon sub })))))) := by
  constructor
  · intro hfind
    unfold validate_coupon
    rw [hfind]
  · intro coupon hfind
    refine ⟨?_, ?_⟩
    · intro h1
      unfold validate_coupon
      rw [hfind]
      dsimp only
      simp [h1]
    · intro h1
      refine ⟨?_, ?_⟩
      · intro h2
        unfold validate_coupon
        rw [hfind]
        dsimp only
        simp [h1, h2]
      · intro h2
        refine ⟨?_, ?_⟩
        · intro h3
          unfold validate_coupon
          rw [hfind]
          dsimp only
          simp [h1, h2, h3]
        · intro h3
          refine ⟨?_, ?_, ?_⟩
          · intro hu
            subst hu
            rfl
          · intro h4
            unfold validate_coupon
            rw [hfind]
            dsimp only
            simp [h1, h2, h3, h4]
          · intro h4
            refine ⟨?_, ?_⟩
            · intro h5
              unfold validate_coupon
              rw [hfind]
              dsimp only
              simp [h1, h2, h3, h4, h5]
            · intro h5
              unfold validate_coupon
              rw [hfind]
              dsimp only
              simp [h1, h2, h3, h4, h5]

/-- C6 (amended): the discount a successful validation returns is the
claimed formula — percentage coupons take `value` percent of the
subtotal, clamped to a nonzero `max_discount` when one is set;
fixed-amount coupons take `value`; the result is clamped to the
subtotal — with the value then rounded to two decimal places, and it is
nonnegative and never exceeds the subtotal for well-formed inputs; the
scenario subtotal 6000 with a 20% coupon capped at 800 yields 800. -/
theorem claim_C6_discount_amended :
    (∀ (st : State) (now : Int) (code : String) (uid : Option Nat) (sub : ℚ)
      (info : CouponInfo), validate_coupon st now code uid sub = .ok info →
      ∃ coupon,
        st.coupons.find? (fun c => c.code == strUpper code && c.is_active)
          = some coupon ∧
        info.discount_amount = couponDiscount coupon sub ∧
        (coupon.type = "percentage" → coupon.max_discount = none →
          info.discount_amount = round2 (min (sub * (coupon.value / 100)) sub)) ∧
        (∀ m, coupon.type = "percentage" → coupon.max_discount = some m → m ≠ 0 →
          info.discount_amount = round2 (min (min (sub * (coupon.value / 100)) m) sub)) ∧
        (coupon.type ≠ "percentage" →
          info.discount_amount = round2 (min coupon.value sub)) ∧
        (0 < coupon.value → (∀ m, coupon.max_discount = some m → 0 ≤ m) →
          0 ≤ sub → isCents sub →
          0 ≤ info.discount_amount ∧ info.discount_amount ≤ sub)) ∧
    ((validate_coupon stSAVE 0 "SAVE20" none 6000).toOption.map
      (fun i => i.discount_amount) = some 800) := by
  constructor
  · intro st now code uid sub info h
    obtain ⟨coupon, hfind, hmin, hinfo⟩ := validate_coupon_ok h
    have hda : info.discount_amount = couponDiscount coupon sub := by
      rw [hinfo]
    refine ⟨coupon, hfind, hda, ?_, ?_, ?_, ?_⟩
    · intro ht hmd
      rw [hda]
      simp [couponDiscount, ht, hmd]
    · intro m ht hmd hm
      rw [hda]
      simp [couponDiscount, ht, hmd, hm]
    · intro ht
      rw [hda]
      simp [couponDiscount, ht]
    · intro hval hmax hs0 hsc
      rw [hda]
      exact couponDiscount_bounds coupon sub hval hmax hs0 hsc
  · have hu : strUpper "SAVE20" = "SAVE20" := by decide
    have h800 : round2 (800 : ℚ) = 800 := by
      have h := round2_eq_self_of_natLit 800
      norm_num at h
      exact h
    have hne : (("SAVE20" : String) == "SAVE20") = true := by decide
    have hfp : (("percentage" : String) = "percentage") = True := by simp
    norm_num [validate_coupon, couponDiscount, stSAVE, couponSAVE20, baseState,
      List.find?, hu, h800, hne, hfp, Except.toOption]

/-- C6, counterexample to the claim as stated: the implementation rounds
the discount to two decimal places, so a 25% coupon on subtotal 0.05
yields 0.01 where the claimed formula yields 0.0125; and a stored
`max_discount` of 0 is skipped by Python truthiness, so a 20% coupon
with cap 0 on subtotal 100 yields 20 where the claimed formula (clamp
whenever the cap is set) yields 0. -/
theorem claim_C6_counterexample :
    ((validate_coupon stC6r 0 "PCT25" none (1/20)).toOption.map
      (fun i => i.discount_amount) = some (1/100)) ∧
    discountSpecC6 couponPCT25 (1/20) = 1/80 ∧
    ((1 : ℚ)/100 ≠ 1/80) ∧
    ((validate_coupon stC6z 0 "ZCAP" none 100).toOption.map
      (fun i => i.discount_amount) = some 20) ∧
    discountSpecC6 couponZCAP 100 = 0 ∧
    ((20 : ℚ) ≠ 0) := by
  refine ⟨?_, ?_, by norm_num, ?_, ?_, by norm_num⟩
  · have hu : strUpper "PCT25" = "PCT25" := by decide
    have hne : (("PCT25" : String) == "PCT25") = true := by decide
    have hfp : (("percentage" : String) = "percentage") = True := by simp
    have hr : round2 (1/80 : ℚ) = 1/100 := by
      unfold round2
      rw [show ((1/80 : ℚ) * 100 + 1/2) = 7/4 by norm_num]
      rw [show ⌊(7/4 : ℚ)⌋ = (1 : ℤ) by norm_num [Int.floor_eq_iff]]
      norm_num
    norm_num [validate_coupon, couponDiscount, stC6r, couponPCT25, baseState,
      List.find?, hu, hne, hfp, hr, Except.toOption]
  · norm_num [discountSpecC6, couponPCT25]
  · have hu : strUpper "ZCAP" = "ZCAP" := by decide
    have hne : (("ZCAP" : String) == "ZCAP") = true := by decide
    have hfp : (("percentage" : String) = "percentage") = True := by simp
    have h20 : round2 (20 : ℚ) = 20 := by
      have h := round2_eq_self_of_natLit 20
      norm_num at h
      exact h
    norm_num [validate_coupon, couponDiscount, stC6z, couponZCAP, baseState,
      List.find?, hu, hne, hfp, h20, Except.toOption]
  · norm_num [discountSpecC6, couponZCAP, min_def]

/-- C5: divergence of the code from the claim, evaluated at the failing
input — the admin status update moves a `delivered` order straight to
`cancelled` and reports success, writing no `order_cancelled` ledger
entry and crediting no stock back, instead of rejecting the transition;
the customer cancellation path, by contrast, does reject an
already-cancelled order with no state change. -/
theorem claim_C5_code_divergence :
    ((update_order_status stC5 1 "cancelled" none 9).2.toOption.map
      (fun o => o.status) = some "cancelled") ∧
    (update_order_status stC5 1 "cancelled" none 9).1.inventory_log = [] ∧
    (update_order_status stC5 1 "cancelled" none 9).1.variants = [varC5] ∧
    ((update_order_status stC5 1 "cancelled" none 9).1.orders.map
      (fun o => o.status) = ["cancelled"]) ∧
    cancel_order stC5b "MB-00000001" 1 = (stC5b, .error .cannotCancel) := by
  refine ⟨?_, ?_, ?_, ?_, ?_⟩
  · norm_num [update_order_status, runTx, update_order_status_core, updateOrder,
      stC5, oC5, varC5, itC5, prodW, baseState, List.find?, Except.toOption]
  · norm_num [update_order_status, runTx, update_order_status_core, updateOrder,
      stC5, oC5, varC5, itC5, prodW, baseState, List.find?]
  · norm_num [update_order_status, runTx, update_order_status_core, updateOrder,
      stC5, oC5, varC5, itC5, prodW, baseState, List.find?]
  · norm_num [update_order_status, runTx, update_order_status_core, updateOrder,
      stC5, oC5, varC5, itC5, prodW, baseState, List.find?]
  · have h1 : (("cancelled" : String) = "pending") = False := by simp
    have h2 : (("cancelled" : String) = "confirmed") = False := by simp
    norm_num [cancel_order, runTx, cancel_order_core, findOrderByNumber,
      stC5b, stC5, oC5, varC5, itC5, prodW, baseState, List.find?, h1, h2]

/-- C1, counterexample to the claim as stated: `admin_create_order`
accepts an admin-typed `discount_amount` larger than the subtotal and
clamps the stored total at zero, so the persisted order has subtotal
100, discount 500, shipping 0, tax 0 and total 0 — violating both
`total = subtotal - discount + shipping + tax` and
`discount_amount <= subtotal`. -/
theorem claim_C1_counterexample :
    ((admin_create_order baseState d8 9 dataC1).2.toOption.map
      (fun o => (o.subtotal, o.discount_amount, o.shipping_cost,
                 o.tax_amount, o.total))
      = some (100, 500, 0, 0, 0)) ∧
    ¬((0 : ℚ) = 100 - 500 + 0 + 0) ∧
    ¬((500 : ℚ) ≤ 100) := by
  refine ⟨?_, by norm_num, by norm_num⟩
  have hg : (("Gift" : String) = "") = False := by simp
  have hmax : ((100 : ℚ) - 500) ⊔ 0 = 0 := by
    rw [max_eq_right]
    norm_num
  norm_num [admin_create_order, runTx, admin_create_order_core,
    processAdminItems, truthyId, truthyStr, generate_order_number,
    baseState, dataC1, Except.toOption, Except.map, hg, hmax]

/-! ### Concrete evaluations feeding the witnesses -/

theorem evalCheckoutC10 :
    place_order stC10 0 d8 (some 1) reqC10 = (stC10post, .ok oC10) := by
  have hnum : generate_order_number d8 = "MB-00000042" := by decide
  norm_num [place_order, runTx, place_order_core, processItems, findProduct,
    truthyId, truthyStr, place_order_finish, updateProduct, stC10, reqC10,
    prodW, cartRow1, cartRow2, baseState, stC10post, oC10, List.find?,
    List.filter, hnum, Except.map]

theorem evalCheckoutGuest :
    place_order stC10 0 d8 none (reqGuest none) = (stGWpost, .ok oGW) := by
  have hnum : generate_order_number d8 = "MB-00000042" := by decide
  norm_num [place_order, runTx, place_order_core, processItems, findProduct,
    truthyId, truthyStr, place_order_finish, updateProduct, stC10, reqGuest,
    prodW, cartRow1, cartRow2, baseState, stGWpost, stC10post, oGW, List.find?,
    hnum, Except.map]

theorem evalC2snd :
    (place_order stC2 0 d8 none reqC2).2 = .error (.insufficientStock 3 "Widget") := by
  norm_num [place_order, runTx, place_order_core, processItems, findProduct,
    findVariant, truthyId, stC2, reqC2, prodW, varC2, baseState, List.find?]

theorem evalAdjC4 :
    adjust_stock stC2 7 2 "restock" none = (stC4w, .ok 5) := by
  norm_num [adjust_stock, runTx, adjust_stock_core, findVariant, updateVariant,
    addLog, stC2, stC4w, varC2, prodW, baseState, List.find?]

theorem evalAdminC1 :
    admin_create_order baseState d8 9 dataC1 = (stAC1post, .ok oAC1) := by
  have hg : (("Gift" : String) = "") = False := by simp
  have hnum : generate_order_number d8 = "MB-00000042" := by decide
  have hmax : ((100 : ℚ) - 500) ⊔ 0 = 0 := by
    rw [max_eq_right]
    norm_num
  norm_num [admin_create_order, runTx, admin_create_order_core,
    processAdminItems, truthyId, truthyStr, hnum,
    baseState, dataC1, stAC1post, oAC1, hg, hmax, Except.map]

theorem evalSAVE :
    validate_coupon stSAVE 0 "SAVE20" none 6000 = .ok infoSAVE := by
  have hu : strUpper "SAVE20" = "SAVE20" := by decide
  have h800 : round2 (800 : ℚ) = 800 := by
    have h := round2_eq_self_of_natLit 800
    norm_num at h
    exact h
  have hne : (("SAVE20" : String) == "SAVE20") = true := by decide
  have hfp : (("percentage" : String) = "percentage") = True := by simp
  norm_num [validate_coupon, couponDiscount, stSAVE, couponSAVE20, baseState,
    List.find?, infoSAVE, hu, h800, hne, hfp]

/-! ### Witnesses -/

theorem claim_C1_amended_witness :
    (oC10.tax_amount = 0 ∧
     oC10.total = oC10.subtotal - oC10.discount_amount + oC10.shipping_cost
       + oC10.tax_amount ∧
     (0 ≤ oC10.total ∧ 0 ≤ oC10.discount_amount ∧
      oC10.discount_amount ≤ oC10.subtotal)) ∧
    (oAC1.tax_amount = 0 ∧
     oAC1.total = max (oAC1.subtotal - oAC1.discount_amount + oAC1.shipping_cost
       + oAC1.tax_amount) 0 ∧
     0 ≤ oAC1.total) := by
  constructor
  · have h := claim_C1_amended.1 stC10 0 d8 (some 1) reqC10 stC10post oC10
      evalCheckoutC10
    refine ⟨h.1, h.2.1, h.2.2 ?_ ?_⟩
    · constructor
      · intro p hp
        simp only [stC10, baseState, prodW, List.mem_singleton] at hp
        subst hp
        refine ⟨by norm_num, ?_⟩
        have hc := isCents_natCast 100
        norm_num at hc
        exact hc
      · intro v hv q hq
        simp [stC10, baseState] at hv
    · intro c hc
      simp [stC10, baseState] at hc
  · exact claim_C1_amended.2 baseState d8 9 dataC1 stAC1post oAC1 evalAdminC1

theorem claim_C3_witness :
    variantIdsNodup stC2 ∧
    ((∀ v ∈ (runOp stC2 (Op.adjust 7 (-5) "shrinkage" none)).variants,
        0 ≤ v.stock_quantity) ∧
     (∀ vid q reason note variant, findVariant stC2 vid = some variant →
        variant.stock_quantity + q < 0 →
        adjust_stock stC2 vid q reason note
          = (stC2, .error (.insufficientAdjust variant.stock_quantity q)))) :=
  ⟨by decide,
   claim_C3_stock_never_negative stC2 (Op.adjust 7 (-5) "shrinkage" none)
     (by decide) (by decide)⟩

theorem claim_C4_witness :
    stC2.inventory_log = [] ∧
    stockOf (runOps stC2 [Op.adjust 7 2 "restock" none]) 7
      = stockOf stC2 7 + ledgerSum (runOps stC2 [Op.adjust 7 2 "restock" none]) 7 ∧
    (stC4w.inventory_log = stC2.inventory_log ++ [⟨7, 2, "restock", none, none⟩] ∧
     stockOf stC4w 7 = stockOf stC2 7 + 2) :=
  ⟨rfl,
   claim_C4_ledger_balance.1 stC2 [Op.adjust 7 2 "restock" none] 7 rfl,
   claim_C4_ledger_balance.2 stC2 7 2 "restock" none stC4w 5 evalAdjC4⟩

theorem claim_C10_witness :
    (stC10post.cart_items = stC10.cart_items.filter (fun c => ¬ c.user_id == some 1) ∧
     ∀ c ∈ stC10post.cart_items, c.user_id ≠ some 1) ∧
    (place_order stC2 0 d8 none reqC2).1 = stC2 ∧
    stGWpost.cart_items = stC10.cart_items :=
  ⟨claim_C10_cart_cleared.1 stC10 0 d8 1 reqC10 stC10post oC10 evalCheckoutC10,
   claim_C10_cart_cleared.2.1 stC2 0 d8 none reqC2 (.insufficientStock 3 "Widget")
     evalC2snd,
   claim_C10_cart_cleared.2.2 stC10 0 d8 (reqGuest none) stGWpost oGW
     evalCheckoutGuest⟩

theorem claim_C2_witness :
    (⟨1, some 7, 5⟩ : CheckoutItem) ∈ reqC2.items ∧
    ((∃ e, place_order stC2 0 d8 none reqC2 = (stC2, .error e)) ∧
     place_order stC2 0 d8 none reqC2 = (stC2, .error (.insufficientStock 3 "Widget"))) :=
  ⟨by decide,
   claim_C2_insufficient_stock stC2 0 d8 none reqC2 ⟨1, some 7, 5⟩ 7 varC2
     (by decide) rfl rfl (by decide)⟩

theorem claim_C8_witness :
    oGW.shipping_cost = (if 5000 ≤ oGW.subtotal then 0 else 200) ∧
    oGW.tax_amount = 0 ∧
    oGW.total = oGW.subtotal - oGW.discount_amount + oGW.shipping_cost :=
  (claim_C8_shipping_and_totals.1 stC10 0 d8 none (reqGuest none) stGWpost oGW
    evalCheckoutGuest)

theorem claim_C9_witness :
    (∃ ds : String, generate_order_number d8 = "MB-" ++ ds ∧
      ds.length = 8 ∧ ∀ c ∈ ds.data, c.isDigit) ∧
    oC10.order_number = generate_order_number d8 ∧
    (∃ e, place_order stC9 0 d8 none (reqGuest none) = (stC9, .error e)) :=
  ⟨claim_C9_order_number_amended.1 d8 (by decide) (by decide),
   claim_C9_order_number_amended.2.1 stC10 0 d8 (some 1) reqC10 stC10post oC10
     evalCheckoutC10,
   claim_C9_order_number_amended.2.2 stC9 0 d8 none (reqGuest none) (by decide)⟩

theorem claim_C7_witness :
    validate_coupon baseState 0 "NOPE" none 100 = .error .invalidCouponCode :=
  (claim_C7_validation_order baseState 0 "NOPE" none 100).1 rfl

theorem claim_C6_witness :
    ∃ coupon,
      stSAVE.coupons.find? (fun c => c.code == strUpper "SAVE20" && c.is_active)
        = some coupon ∧
      infoSAVE.discount_amount = couponDiscount coupon 6000 ∧
      (coupon.type = "percentage" → coupon.max_discount = none →
        infoSAVE.discount_amount
          = round2 (min ((6000 : ℚ) * (coupon.value / 100)) 6000)) ∧
      (∀ m, coupon.type = "percentage" → coupon.max_discount = some m → m ≠ 0 →
        infoSAVE.discount_amount
          = round2 (min (min ((6000 : ℚ) * (coupon.value / 100)) m) 6000)) ∧
      (coupon.type ≠ "percentage" →
        infoSAVE.discount_amount = round2 (min coupon.value 6000)) ∧
      (0 < coupon.value → (∀ m, coupon.max_discount = some m → 0 ≤ m) →
        0 ≤ (6000 : ℚ) → isCents (6000 : ℚ) →
        0 ≤ infoSAVE.discount_amount ∧ infoSAVE.discount_amount ≤ 6000) :=
  claim_C6_discount_amended.1 stSAVE 0 "SAVE20" none 6000 infoSAVE evalSAVE

end Nexureco
